import Mathlib

/-!
Verification development for the story/enemy content compiler
(tools/build_story_from_md.py).  The Python functions are embedded
shallowly: strings are lists of characters, Python dicts are ordered
association lists, and the regular expressions the script uses are
modelled by dedicated matcher functions with the exact backtracking
behaviour of the original patterns.  The model covers the ASCII range of
the Python text predicates (str.isdigit, str.strip, the regex classes
\s and \d); the compiled content this build script processes is ASCII.
-/

namespace StoryBuild

/-- An exact (not necessarily reduced) fraction with positive denominator,
the value of a finite Python float literal.  Binary rounding of the double
is not modelled; it can only matter for literals with more than sixteen
significant digits. -/
structure DecRat where
  num : Int
  den : Nat
  deriving DecidableEq

/-- Value equality of two fractions (cross multiplication). -/
def dEq (x y : DecRat) : Bool := x.num * (y.den : Int) == y.num * (x.den : Int)

/-- Whether the fraction is an integer: Python value == int(value). -/
def dIsInt (q : DecRat) : Bool := q.num % (q.den : Int) == 0

/-- Python int(value) for a fraction that is an integer (exact division). -/
def dToInt (q : DecRat) : Int := q.num / (q.den : Int)

/-- Python runtime values as they occur in the build script: parsed
frontmatter scalars, lists and nested dicts.  A Python float is modelled
by `rat`, the exact rational value of its decimal literal.  `nan` and
`inf` model the non-finite floats Python float() can return. -/
inductive PyVal where
  | none : PyVal
  | str : List Char → PyVal
  | int : Int → PyVal
  | rat : DecRat → PyVal
  | bool : Bool → PyVal
  | nan : PyVal
  | inf : Bool → PyVal
  | list : List PyVal → PyVal
  | dict : List (List Char × PyVal) → PyVal

/-- Shorthand: the character list of a string literal. -/
def S (s : String) : List Char := s.data

/-- Numeric view used by Python's cross-type equality (True == 1,
2.0 == 2 and so on). -/
def pvNum : PyVal → Option DecRat
  | .int n => some ⟨n, 1⟩
  | .rat q => some q
  | .bool b => some ⟨if b then 1 else 0, 1⟩
  | _ => none

/-- Python == on parsed values, with fuel to make the nested recursion
structural; the fuel supplied by `pvBeq` always suffices.  Numeric values
compare by value across int/float/bool as in Python; nan compares unequal
to everything including itself; dicts compare as ordered association
lists, which never differs from Python dict equality on values this
compiler produces (parsed dicts are only ever compared against scalars). -/
def pvBeqF : Nat → PyVal → PyVal → Bool
  | 0, _, _ => false
  | f + 1, a, b =>
    match pvNum a, pvNum b with
    | some x, some y => dEq x y
    | _, _ =>
      match a, b with
      | .none, .none => true
      | .str x, .str y => x == y
      | .inf x, .inf y => x == y
      | .list xs, .list ys =>
        xs.length == ys.length && (xs.zip ys).all (fun p => pvBeqF f p.1 p.2)
      | .dict xs, .dict ys =>
        xs.length == ys.length &&
          (xs.zip ys).all (fun p => p.1.1 == p.2.1 && pvBeqF f p.1.2 p.2.2)
      | _, _ => false

/-- Depth of a parsed value, a fuel bound for `pvBeqF`. -/
def pvDepth : Nat → PyVal → Nat
  | 0, _ => 1
  | f + 1, v =>
    match v with
    | .list xs => (xs.map (pvDepth f)).foldl Nat.max 0 + 1
    | .dict xs => (xs.map (fun e => pvDepth f e.2)).foldl Nat.max 0 + 1
    | _ => 1

/-- Python == on parsed values. -/
def pvBeq (a b : PyVal) : Bool := pvBeqF (pvDepth 1000 a + pvDepth 1000 b) a b

instance : BEq PyVal := ⟨pvBeq⟩

/-- Python dict with insertion order: an ordered association list. -/
abbrev Dict := List (List Char × PyVal)

/-- ASCII whitespace as stripped by Python str.strip() and matched by \s. -/
def isWS (c : Char) : Bool :=
  c == ' ' || c == '\t' || c == '\n' || c == '\r' || c == Char.ofNat 11 || c == Char.ofNat 12

def isDigitC (c : Char) : Bool := '0' ≤ c && c ≤ '9'

/-- Python str.isdigit() restricted to the ASCII digits. -/
def pyIsDigit (s : List Char) : Bool := !s.isEmpty && s.all isDigitC

def digitsToNat (s : List Char) : Nat := s.foldl (fun a c => a * 10 + (c.toNat - 48)) 0

/-- Number of leading whitespace characters (the script's get_indent). -/
def countWS : List Char → Nat
  | [] => 0
  | c :: r => if isWS c then countWS r + 1 else 0

/-- Python str.strip(): whitespace removed from both ends. -/
def pyStrip (s : List Char) : List Char :=
  ((s.dropWhile isWS).reverse.dropWhile isWS).reverse

/-- Python str.strip(ch): all copies of one character removed from both ends. -/
def stripCh (q : Char) (s : List Char) : List Char :=
  ((s.dropWhile (· == q)).reverse.dropWhile (· == q)).reverse

/-- ASCII lowercasing, modelling str.lower() on the content in scope. -/
def lowerS (s : List Char) : List Char := s.map Char.toLower

/-- Index of the first occurrence of `pat` as a contiguous sublist. -/
def findSub (pat : List Char) : List Char → Option Nat
  | [] => if pat.isPrefixOf ([] : List Char) then some 0 else none
  | c :: rest => if pat.isPrefixOf (c :: rest) then some 0 else (findSub pat rest).map (· + 1)

/-- Python substring containment `pat in s` (for nonempty pat). -/
def pyIn (pat s : List Char) : Bool := (findSub pat s).isSome

/-- Python str.split(sep) core loop; `fuel` only bounds the recursion and is
always supplied as the length of the string, which the loop never exhausts. -/
def pySplitGo (sep : List Char) : Nat → List Char → List (List Char)
  | 0, s => [s]
  | fuel + 1, s =>
    match findSub sep s with
    | none => [s]
    | some i => s.take i :: pySplitGo sep fuel (s.drop (i + sep.length))

/-- Python str.split(sep) for a nonempty separator. -/
def pySplit (sep s : List Char) : List (List Char) :=
  if sep.isEmpty then [s] else pySplitGo sep s.length s

def splitLines (s : List Char) : List (List Char) := pySplit ['\n'] s

/-- Python str.partition(c): text before the first `c` and the text after it
(when `c` is absent the whole string is the first component, as in Python). -/
def pyPartition (c : Char) : List Char → List Char × List Char
  | [] => ([], [])
  | x :: r =>
    if x = c then ([], r)
    else
      let p := pyPartition c r
      (x :: p.1, p.2)

section Regex

variable {α : Type}

/-- re.search over a head-matcher `m`: `m s` matches the pattern at the start
of `s`, returning consumed length and payload; the search scans left to right
for the first position with a match, as re.search does. -/
def reSearch (m : List Char → Option (Nat × α)) : List Char → Option α
  | [] => (m []).map Prod.snd
  | c :: rest =>
    match m (c :: rest) with
    | some x => some x.2
    | none => reSearch m rest

/-- re.search, additionally returning the match's start index and length. -/
def reSearchPos (m : List Char → Option (Nat × α)) : List Char → Option (Nat × Nat × α)
  | [] => (m []).map (fun x => (0, x.1, x.2))
  | c :: rest =>
    match m (c :: rest) with
    | some x => some (0, x.1, x.2)
    | none => (reSearchPos m rest).map (fun y => (y.1 + 1, y.2.1, y.2.2))

/-- re.sub(pattern, empty, s) core loop: remove every non-overlapping match,
scanning left to right.  All matchers used here consume at least one
character, so fuel `s.length` is never exhausted. -/
def reSubGo (m : List Char → Option (Nat × α)) : Nat → List Char → List Char
  | 0, s => s
  | _ + 1, [] => []
  | fuel + 1, c :: rest =>
    match m (c :: rest) with
    | some x => reSubGo m fuel ((c :: rest).drop x.1)
    | none => c :: reSubGo m fuel rest

/-- re.sub(pattern, empty string, s): every match removed. -/
def reSubAll (m : List Char → Option (Nat × α)) (s : List Char) : List Char :=
  reSubGo m s.length s

end Regex

/-- Head-matcher for the pattern `marker\s*([^close]+)close` (the shape of
the (requires: ...), (sets: ...), (require_items: ...), (uses: ...),
(battle: ...) and [sfx: ...] groups).  The greedy `\s*` swallows the
whitespace run; if the closing character follows it directly, the engine
backtracks one step so that `[^close]+` can match the final whitespace
character, exactly as Python's engine does. -/
def mGroup (marker : List Char) (close : Char) (s : List Char) : Option (Nat × List Char) :=
  if marker.isPrefixOf s then
    let rest := s.drop marker.length
    let w := countWS rest
    match rest.drop w with
    | [] => none
    | t :: _ =>
      if t = close then
        if 1 ≤ w then some (marker.length + w + 1, (rest.drop (w - 1)).take 1)
        else none
      else
        let content := (rest.drop w).takeWhile (· != close)
        if content.length < (rest.drop w).length then
          some (marker.length + w + content.length + 1, content)
        else none
  else none

/-- Head-matcher for `heals:\s*(\d+)`; the payload is the parsed number. -/
def mHeals (s : List Char) : Option (Nat × Nat) :=
  if (S "heals:").isPrefixOf s then
    let rest := s.drop 6
    let w := countWS rest
    let ds := (rest.drop w).takeWhile isDigitC
    if ds.isEmpty then none else some (6 + w + ds.length, digitsToNat ds)
  else none

/-- Head-matcher for `\(heals:\s*\d+\)` (the standalone removal pattern). -/
def mHealsParen (s : List Char) : Option (Nat × Unit) :=
  if (S "(heals:").isPrefixOf s then
    let rest := s.drop 7
    let w := countWS rest
    let ds := (rest.drop w).takeWhile isDigitC
    if ds.isEmpty then none
    else
      match rest.drop (w + ds.length) with
      | ')' :: _ => some (7 + w + ds.length + 1, ())
      | _ => none
  else none

/-- Shared body `\s*heals:\s*\d+` of the first uses-content cleanup. -/
def mCleanBody (s : List Char) : Option Nat :=
  let w := countWS s
  if (S "heals:").isPrefixOf (s.drop w) then
    let rest := s.drop (w + 6)
    let w2 := countWS rest
    let ds := (rest.drop w2).takeWhile isDigitC
    if ds.isEmpty then none else some (w + 6 + w2 + ds.length)
  else none

/-- Head-matcher for `,?\s*heals:\s*\d+` (first cleanup inside a uses group);
the greedy `,?` prefers consuming a comma and falls back without it. -/
def mCleanA (s : List Char) : Option (Nat × Unit) :=
  match s with
  | ',' :: r =>
    match mCleanBody r with
    | some k => some (k + 1, ())
    | none => (mCleanBody s).map (fun k => (k, ()))
  | _ => (mCleanBody s).map (fun k => (k, ()))

/-- Head-matcher for `heals:\s*\d+,?\s*` (second cleanup inside a uses group). -/
def mCleanB (s : List Char) : Option (Nat × Unit) :=
  if (S "heals:").isPrefixOf s then
    let rest := s.drop 6
    let w := countWS rest
    let ds := (rest.drop w).takeWhile isDigitC
    if ds.isEmpty then none
    else
      match rest.drop (w + ds.length) with
      | ',' :: r2 => some (6 + w + ds.length + 1 + countWS r2, ())
      | rest2 => some (6 + w + ds.length + countWS rest2, ())
  else none

/-- Index of the last newline of a list (used for the trailing `\s*\n` of the
Choices-heading pattern, where the greedy `\s*` backtracks to the last
newline inside the whitespace run). -/
def lastIdxNL : List Char → Option Nat
  | [] => none
  | c :: r =>
    match lastIdxNL r with
    | some j => some (j + 1)
    | none => if c = '\n' then some 0 else none

/-- Head-matcher for `###\s*Choices\s*\n` (the Choices-section heading). -/
def mChoicesHead (s : List Char) : Option (Nat × Unit) :=
  if (S "###").isPrefixOf s then
    let r1 := s.drop 3
    let w1 := countWS r1
    if (S "Choices").isPrefixOf (r1.drop w1) then
      let r2 := r1.drop (w1 + 7)
      match lastIdxNL (r2.takeWhile isWS) with
      | some j => some (3 + w1 + 7 + j + 1, ())
      | none => none
    else none
  else none

/-! Model of Python float() on string input: sign, digit groups with single
underscores between digits, optional fraction and exponent, or the inf/nan
spellings, with surrounding whitespace.  Finite values are kept as exact
rationals. -/

inductive FloatParse where
  | notFloat
  | finite (q : DecRat)
  | posInf
  | negInf
  | fnan
  deriving DecidableEq

/-- Continue a digit group: digits with single underscores between them.
Returns accumulated value, digit count and the unconsumed rest. -/
def ugMore (acc : Nat) (n : Nat) : List Char → Nat × Nat × List Char
  | [] => (acc, n, [])
  | c :: r =>
    if isDigitC c then ugMore (acc * 10 + (c.toNat - 48)) (n + 1) r
    else if c = '_' then
      match r with
      | d :: _ => if isDigitC d then ugMore acc n r else (acc, n, c :: r)
      | [] => (acc, n, c :: r)
    else (acc, n, c :: r)

/-- A digit group (at least one digit, single underscores allowed between
digits); fails when the input does not start with a digit. -/
def ugDigits (s : List Char) : Option (Nat × Nat × List Char) :=
  match s with
  | c :: r => if isDigitC c then some (ugMore (c.toNat - 48) 1 r) else none
  | [] => none

/-- Multiply an exact fraction by a power of ten. -/
def dMulPow10 (q : DecRat) (e : Int) : DecRat :=
  if 0 ≤ e then ⟨q.num * (10 ^ e.toNat : Nat), q.den⟩
  else ⟨q.num, q.den * 10 ^ (-e).toNat⟩

/-- Exponent part `(e|E)[+-]?digits`, requiring full consumption. -/
def parseExp (s : List Char) : Option Int :=
  match s with
  | c :: r =>
    if c = 'e' ∨ c = 'E' then
      match r with
      | '+' :: r2 =>
        (ugDigits r2).bind (fun t => if t.2.2.isEmpty then some (Int.ofNat t.1) else none)
      | '-' :: r2 =>
        (ugDigits r2).bind (fun t => if t.2.2.isEmpty then some (-(Int.ofNat t.1)) else none)
      | _ =>
        (ugDigits r).bind (fun t => if t.2.2.isEmpty then some (Int.ofNat t.1) else none)
    else none
  | [] => none

/-- The number part of a float literal (after sign): digitpart with optional
fraction, or a leading-dot fraction, with optional exponent.  The value of
`i.f * 10^e` is represented exactly as (i*10^nf + f) / 10^nf times 10^e. -/
def pyFloatNum (s : List Char) : Option DecRat :=
  match ugDigits s with
  | some t =>
    let i := t.1
    match t.2.2 with
    | [] => some ⟨Int.ofNat i, 1⟩
    | '.' :: r2 =>
      match ugDigits r2 with
      | some t2 =>
        let v : DecRat := ⟨Int.ofNat (i * 10 ^ t2.2.1 + t2.1), 10 ^ t2.2.1⟩
        if t2.2.2.isEmpty then some v
        else
          match parseExp t2.2.2 with
          | some e => some (dMulPow10 v e)
          | none => none
      | none =>
        if r2.isEmpty then some ⟨Int.ofNat i, 1⟩
        else
          match parseExp r2 with
          | some e => some (dMulPow10 ⟨Int.ofNat i, 1⟩ e)
          | none => none
    | rest =>
      match parseExp rest with
      | some e => some (dMulPow10 ⟨Int.ofNat i, 1⟩ e)
      | none => none
  | none =>
    match s with
    | '.' :: r2 =>
      match ugDigits r2 with
      | some t2 =>
        let v : DecRat := ⟨Int.ofNat t2.1, 10 ^ t2.2.1⟩
        if t2.2.2.isEmpty then some v
        else
          match parseExp t2.2.2 with
          | some e => some (dMulPow10 v e)
          | none => none
      | none => none
    | _ => none

/-- Model of Python float(v) applied to a parsed scalar string. -/
def pyFloatParse (s0 : List Char) : FloatParse :=
  let s := pyStrip s0
  let t : Bool × List Char :=
    match s with
    | '+' :: r => (false, r)
    | '-' :: r => (true, r)
    | _ => (false, s)
  let neg := t.1
  let s1 := t.2
  if lowerS s1 = S "inf" ∨ lowerS s1 = S "infinity" then
    if neg then .negInf else .posInf
  else if lowerS s1 = S "nan" then .fnan
  else
    match pyFloatNum s1 with
    | some q => .finite (if neg then ⟨-q.num, q.den⟩ else q)
    | none => .notFloat

/-! Ordered-dict operations (Python dict assignment keeps the position of an
existing key; del removes the entry). -/

def dget (d : Dict) (k : List Char) : Option PyVal :=
  match d with
  | [] => none
  | e :: r => if e.1 = k then some e.2 else dget r k

def dset (d : Dict) (k : List Char) (v : PyVal) : Dict :=
  match d with
  | [] => [(k, v)]
  | e :: r => if e.1 = k then (k, v) :: r else e :: dset r k v

def ddel (d : Dict) (k : List Char) : Dict :=
  d.filter (fun e => e.1 != k)

/-- Whether a parsed value is Python None. -/
def isNoneV : PyVal → Bool
  | .none => true
  | _ => false

/-- Python truthiness of a parsed value. -/
def pyTruthy : PyVal → Bool
  | .none => false
  | .str s => !s.isEmpty
  | .int n => n != 0
  | .rat q => q.num != 0
  | .bool b => b
  | .nan => true
  | .inf _ => true
  | .list l => !l.isEmpty
  | .dict d => !d.isEmpty

/-! ChoiceAnnotationParser: parse_choices and its per-line body. -/

def uArrow : List Char := S "→"
def aArrow : List Char := S "->"

def mRequires : List Char → Option (Nat × List Char) := mGroup (S "(requires:") ')'
def mSets : List Char → Option (Nat × List Char) := mGroup (S "(sets:") ')'
def mReqItems : List Char → Option (Nat × List Char) := mGroup (S "(require_items:") ')'
def mUses : List Char → Option (Nat × List Char) := mGroup (S "(uses:") ')'
def mBattle : List Char → Option (Nat × List Char) := mGroup (S "(battle:") ')'
def mSfx : List Char → Option (Nat × List Char) := mGroup (S "[sfx:") ']'

/-- Comma-split with each element stripped (the requires/sets/require_items
list treatment, which keeps empty elements). -/
def splitCSV (g : List Char) : List (List Char) := (pySplit [','] g).map pyStrip

/-- The apostrophe character, used by the script's error message texts. -/
def sq : Char := Char.ofNat 39

def optStr : Option (List Char) → PyVal
  | some s => .str s
  | none => .none

def optNat : Option Nat → PyVal
  | some n => .int (Int.ofNat n)
  | none => .none

/-- The choice dict as parse_choices builds it: all nine keys inserted in
source order, then the empty/None ones deleted, in the deletion order of
the script. -/
def choiceDict (label target : List Char) (rf sf ri us : List (List Char))
    (sfx : Option (List Char)) (heals : Option Nat) (battle : Option (List Char)) : Dict :=
  let d : Dict :=
    [(S "label", .str label), (S "target", .str target),
     (S "require_flags", .list (rf.map .str)), (S "set_flags", .list (sf.map .str)),
     (S "require_items", .list (ri.map .str)), (S "uses", .list (us.map .str)),
     (S "sfx", optStr sfx), (S "heals", optNat heals), (S "battle_action", optStr battle)]
  let d := if rf.isEmpty then ddel d (S "require_flags") else d
  let d := if sf.isEmpty then ddel d (S "set_flags") else d
  let d := if ri.isEmpty then ddel d (S "require_items") else d
  let d := if us.isEmpty then ddel d (S "uses") else d
  let d := if heals.isNone then ddel d (S "heals") else d
  let d := if battle.isNone then ddel d (S "battle_action") else d
  let d := if sfx.isNone then ddel d (S "sfx") else d
  d

/-- Modifier extraction from the label part, in the script's fixed order
requires, sets, require_items, heals, uses, battle, sfx; each matched
marker's pattern is then removed from the label (re.sub removes every
occurrence) and the label re-stripped. -/
def extractChoice (lp0 target : List Char) : Dict :=
  let rM := reSearch mRequires lp0
  let rf := match rM with | some g => splitCSV g | none => []
  let lp1 := match rM with | some _ => pyStrip (reSubAll mRequires lp0) | none => lp0
  let sM := reSearch mSets lp1
  let sf := match sM with | some g => splitCSV g | none => []
  let lp2 := match sM with | some _ => pyStrip (reSubAll mSets lp1) | none => lp1
  let iM := reSearch mReqItems lp2
  let ri := match iM with | some g => splitCSV g | none => []
  let lp3 := match iM with | some _ => pyStrip (reSubAll mReqItems lp2) | none => lp2
  let hM := reSearch mHeals lp3
  let lp4 := match hM with | some _ => pyStrip (reSubAll mHealsParen lp3) | none => lp3
  let uM := reSearch mUses lp4
  let us := match uM with
    | some g =>
      let g1 := pyStrip (reSubAll mCleanA g)
      let g2 := pyStrip (reSubAll mCleanB g1)
      ((pySplit [','] g2).map pyStrip).filter (fun i => !i.isEmpty)
    | none => []
  let lp5 := match uM with | some _ => pyStrip (reSubAll mUses lp4) | none => lp4
  let bM := reSearch mBattle lp5
  let battle := bM.map pyStrip
  let lp6 := match bM with | some _ => pyStrip (reSubAll mBattle lp5) | none => lp5
  let xM := reSearch mSfx lp6
  let sfx := xM.map pyStrip
  let lp7 := match xM with | some _ => pyStrip (reSubAll mSfx lp6) | none => lp6
  choiceDict lp7 target rf sf ri us sfx hM battle

/-- The arrow split: the unicode arrow is checked first anywhere in the
line; str.split cuts at every occurrence and the script takes parts[0]
and parts[1]. -/
def splitArrow (line : List Char) : Option (List Char × List Char) :=
  if pyIn uArrow line then
    let parts := pySplit uArrow line
    some (pyStrip (parts.getD 0 []), pyStrip (parts.getD 1 []))
  else if pyIn aArrow line then
    let parts := pySplit aArrow line
    some (pyStrip (parts.getD 0 []), pyStrip (parts.getD 1 []))
  else none

/-- One iteration of the parse_choices line loop: strip, require a leading
dash, strip the rest, split at an arrow or skip the line. -/
def lineToChoice (raw : List Char) : Option Dict :=
  let line := pyStrip raw
  if line.isEmpty then none
  else if !((['-'] : List Char).isPrefixOf line) then none
  else
    let line2 := pyStrip (line.drop 1)
    match splitArrow line2 with
    | some lt => some (extractChoice lt.1 lt.2)
    | none => none

def parse_choices (text : List Char) : List Dict :=
  (splitLines (pyStrip text)).filterMap lineToChoice

/-! StructuredTextParser for scenes: parse_frontmatter.  The Python loop's
mutable locals become an explicit state; current_list always aliases the
frontmatter entry of the key it was created for, so the state stores that
key instead of the list. -/

structure FMSt where
  fm : Dict
  curKey : Option (List Char)
  curList : Option (List Char)
  curAction : Option Dict
  curNested : Option Dict
  curNestedKey : Option (List Char)
  curChar : Option Dict
  actionsAcc : List Dict
  charsAcc : List PyVal

def initFM : FMSt := ⟨[], none, none, none, none, none, none, [], []⟩

/-- Python: `if current_nested and current_nested_key:` fold the nested dict
into the action under its key (both must be truthy). -/
def foldNested (a : Dict) (n : Option Dict) (nk : Option (List Char)) : Dict :=
  match n, nk with
  | some nd, some k => if !nd.isEmpty && !k.isEmpty then dset a k (.dict nd) else a
  | _, _ => a

/-- The only scalar coercion of the scene frontmatter parser: digit strings
become ints, everything else stays a string. -/
def intCoerce (v : List Char) : PyVal :=
  if pyIsDigit v then .int (Int.ofNat (digitsToNat v)) else .str v

/-- Coercion of positioned-char properties: try float, collapse whole floats
to int, keep the string when float() fails.  float(inf) followed by int()
raises an uncaught OverflowError, which aborts the build (error). -/
def charCoerce (v : List Char) : Except Unit PyVal :=
  match pyFloatParse v with
  | .finite q => .ok (if dIsInt q then .int (dToInt q) else .rat q)
  | .fnan => .ok .nan
  | .posInf => .error ()
  | .negInf => .error ()
  | .notFloat => .ok (.str v)

/-- One line of the parse_frontmatter loop, with the branch order of the
source. -/
def fmStep (st : FMSt) (line : List Char) : Except Unit FMSt :=
  let stripped := pyStrip line
  if stripped.isEmpty then .ok st else
  let ind := countWS line
  if st.curKey = some (S "actions") ∧ (S "- type:").isPrefixOf stripped then
    let st1 :=
      match st.curAction with
      | some a =>
        if a.isEmpty then st
        else { st with actionsAcc := st.actionsAcc ++ [foldNested a st.curNested st.curNestedKey] }
      | none => st
    .ok { st1 with curAction := some [(S "type", .str (pyStrip (stripped.drop 7)))],
                   curNested := none, curNestedKey := none, curChar := none }
  else if st.curKey = some (S "chars") ∧ (S "- file:").isPrefixOf stripped then
    let st1 :=
      match st.curChar with
      | some ch =>
        if ch.isEmpty then st else { st with charsAcc := st.charsAcc ++ [PyVal.dict ch] }
      | none => st
    .ok { st1 with curChar := some [(S "file", .str (pyStrip (stripped.drop 7)))],
                   curAction := none, curNested := none }
  else if st.curNested.isSome ∧ 6 ≤ ind ∧ pyIn [':'] stripped then
    let p := pyPartition ':' stripped
    .ok { st with curNested := some (dset (st.curNested.getD []) (pyStrip p.1) (intCoerce (pyStrip p.2))) }
  else if st.curAction.isSome ∧ 4 ≤ ind ∧ pyIn [':'] stripped then
    let p := pyPartition ':' stripped
    let k := pyStrip p.1
    let v := pyStrip p.2
    if v.isEmpty then
      let a := foldNested (st.curAction.getD []) st.curNested st.curNestedKey
      .ok { st with curAction := some a, curNested := some [], curNestedKey := some k }
    else
      .ok { st with curAction := some (dset (st.curAction.getD []) k (intCoerce v)) }
  else if st.curChar.isSome ∧ 4 ≤ ind ∧ pyIn [':'] stripped then
    let p := pyPartition ':' stripped
    match charCoerce (pyStrip p.2) with
    | .ok cv => .ok { st with curChar := some (dset (st.curChar.getD []) (pyStrip p.1) cv) }
    | .error e => .error e
  else if (S "- ").isPrefixOf stripped then
    let item := pyStrip (stripped.drop 2)
    if st.curKey = some (S "chars") ∧ st.curChar.isNone then
      .ok { st with charsAcc := st.charsAcc ++ [.str item] }
    else
      match st.curList with
      | some lk =>
        match dget st.fm lk with
        | some (.list l) => .ok { st with fm := dset st.fm lk (.list (l ++ [.str item])) }
        | _ => .ok st
      | none => .ok st
  else if ind = 0 ∧ pyIn [':'] stripped then
    let p := pyPartition ':' stripped
    let k := pyStrip p.1
    let v := pyStrip p.2
    let st1 :=
      match st.curAction with
      | some a =>
        if a.isEmpty then st
        else { st with actionsAcc := st.actionsAcc ++ [foldNested a st.curNested st.curNestedKey],
                       curAction := none, curNested := none, curNestedKey := none }
      | none => st
    let st2 :=
      match st1.curChar with
      | some ch =>
        if ch.isEmpty then st1
        else { st1 with charsAcc := st1.charsAcc ++ [PyVal.dict ch], curChar := none }
      | none => st1
    if v.isEmpty then
      if k = S "actions" then .ok { st2 with curKey := some k, curList := none }
      else if k = S "chars" then .ok { st2 with curKey := some k, curList := none, charsAcc := [] }
      else .ok { st2 with fm := dset st2.fm k (.list []), curKey := some k, curList := some k }
    else
      .ok { st2 with fm := dset st2.fm k (intCoerce v), curKey := some k, curList := none }
  else .ok st

/-- The wrap-up after the line loop: pending action and char are flushed and
the accumulated actions and chars attached when nonempty. -/
def fmFinish (st : FMSt) : Dict :=
  let st1 :=
    match st.curAction with
    | some a =>
      if a.isEmpty then st
      else { st with actionsAcc := st.actionsAcc ++ [foldNested a st.curNested st.curNestedKey] }
    | none => st
  let st2 :=
    match st1.curChar with
    | some ch => if ch.isEmpty then st1 else { st1 with charsAcc := st1.charsAcc ++ [PyVal.dict ch] }
    | none => st1
  let fm1 := if st2.actionsAcc.isEmpty then st2.fm
             else dset st2.fm (S "actions") (.list (st2.actionsAcc.map .dict))
  if st2.charsAcc.isEmpty then fm1 else dset fm1 (S "chars") (.list st2.charsAcc)

def fmLines (lines : List (List Char)) : Except Unit Dict := do
  let st ← lines.foldlM fmStep initFM
  pure (fmFinish st)

/-- parse_frontmatter: no opening delimiter or no closing delimiter means
empty frontmatter with the whole content as body. -/
def parse_frontmatter (content : List Char) : Except Unit (Dict × List Char) :=
  if !((S "---").isPrefixOf content) then .ok ([], content)
  else
    match findSub (S "\n---\n") (content.drop 3) with
    | none => .ok ([], content)
    | some i =>
      let fmText := (content.drop 3).take i
      let body := ((content.drop 3).drop (i + 5))
      (fmLines (splitLines fmText)).map (fun fm => (fm, body))

/-! SceneCompiler: parse_text_blocks and parse_scene_file. -/

def parse_text_blocks (body : List Char) : List (List Char) × List Dict :=
  match reSearchPos mChoicesHead body with
  | some p =>
    let textPart := body.take p.1
    let choicesPart := body.drop (p.1 + p.2.1)
    (((pySplit (S "\n---\n") textPart).map pyStrip).filter (fun b => !b.isEmpty),
      parse_choices choicesPart)
  | none =>
    (((pySplit (S "\n---\n") body).map pyStrip).filter (fun b => !b.isEmpty), [])

/-- The scene dict: all eleven keys in source insertion order, then the
empty collections, and a bg/music that stayed None, deleted in the
script's order. -/
def buildScene (stem : List Char) (fm : Dict) (blocks : List (List Char))
    (choices : List Dict) : Dict :=
  let vBg := (dget fm (S "bg")).getD .none
  let vMusic := (dget fm (S "music")).getD .none
  let vChars := (dget fm (S "chars")).getD (.list [])
  let vSet := (dget fm (S "set_flags")).getD (.list [])
  let vReq := (dget fm (S "require_flags")).getD (.list [])
  let vAdd := (dget fm (S "add_items")).getD (.list [])
  let vRem := (dget fm (S "remove_items")).getD (.list [])
  let vAct := (dget fm (S "actions")).getD (.list [])
  let sc : Dict :=
    [(S "id", (dget fm (S "id")).getD (.str stem)),
     (S "bg", vBg), (S "music", vMusic), (S "chars", vChars),
     (S "set_flags", vSet), (S "require_flags", vReq),
     (S "add_items", vAdd), (S "remove_items", vRem), (S "actions", vAct),
     (S "textBlocks", .list (blocks.map .str)),
     (S "choices", .list (choices.map .dict))]
  let sc := if !pyTruthy vSet then ddel sc (S "set_flags") else sc
  let sc := if !pyTruthy vReq then ddel sc (S "require_flags") else sc
  let sc := if !pyTruthy vAdd then ddel sc (S "add_items") else sc
  let sc := if !pyTruthy vRem then ddel sc (S "remove_items") else sc
  let sc := if !pyTruthy vAct then ddel sc (S "actions") else sc
  let sc := if !pyTruthy vChars then ddel sc (S "chars") else sc
  let sc := if isNoneV vBg then ddel sc (S "bg") else sc
  let sc := if isNoneV vMusic then ddel sc (S "music") else sc
  sc

def parse_scene_file (stem content : List Char) : Except Unit Dict :=
  (parse_frontmatter content).map (fun fb =>
    let tb := parse_text_blocks fb.2
    buildScene stem fb.1 tb.1 tb.2)

/-! EnemyCompiler: parse_enemy_frontmatter.  Errors model the uncaught
exceptions of the coercion code (int() applied to an infinite float at the
top level, in move properties and in summon properties; at the top level a
nan float also crashes, in value.lower()). -/

/-- Top-level enemy scalar coercion: digits, else float (whole floats
collapse to int), else `true`/`false`, else the literal string. -/
def enemyTopCoerce (v : List Char) : Except Unit PyVal :=
  if pyIsDigit v then .ok (.int (Int.ofNat (digitsToNat v)))
  else
    match pyFloatParse v with
    | .finite q => .ok (if dIsInt q then .int (dToInt q) else .rat q)
    | .posInf => .error ()
    | .negInf => .error ()
    | .fnan => .error ()
    | .notFloat =>
      if lowerS v = S "true" then .ok (.bool true)
      else if lowerS v = S "false" then .ok (.bool false)
      else .ok (.str v)

/-- Move property coercion: digits, else booleans, else float with whole
floats collapsed (nan stays a float, inf crashes on int()). -/
def moveCoerce (v : List Char) : Except Unit PyVal :=
  if pyIsDigit v then .ok (.int (Int.ofNat (digitsToNat v)))
  else if lowerS v = S "true" then .ok (.bool true)
  else if lowerS v = S "false" then .ok (.bool false)
  else
    match pyFloatParse v with
    | .finite q => .ok (if dIsInt q then .int (dToInt q) else .rat q)
    | .posInf => .error ()
    | .negInf => .error ()
    | .fnan => .ok .nan
    | .notFloat => .ok (.str v)

/-- statusEffect property coercion: digits, else float kept as float (no
collapse, non-finite floats stored as such), else the string. -/
def seCoerce (v : List Char) : PyVal :=
  if pyIsDigit v then .int (Int.ofNat (digitsToNat v))
  else
    match pyFloatParse v with
    | .finite q => .rat q
    | .posInf => .inf false
    | .negInf => .inf true
    | .fnan => .nan
    | .notFloat => .str v

/-- Summon property coercion (value already quote-stripped): digits, else
float with whole floats collapsed (nan stays, inf crashes on int()). -/
def summonCoerce (v : List Char) : Except Unit PyVal :=
  if pyIsDigit v then .ok (.int (Int.ofNat (digitsToNat v)))
  else
    match pyFloatParse v with
    | .finite q => .ok (if dIsInt q then .int (dToInt q) else .rat q)
    | .posInf => .error ()
    | .negInf => .error ()
    | .fnan => .ok .nan
    | .notFloat => .ok (.str v)

structure ESt where
  result : Dict
  sect : Option (List Char)
  subsect : Option (List Char)
  curMove : Option Dict
  curSummon : Option Dict
  dlg : Dict
  moves : List Dict
  summons : List Dict

/-- The inner while loop of a statusEffect block: consume nested lines
(indent at least 6), return the nested dict and the unconsumed lines. -/
def seLoop : List (List Char) → Dict → Dict × List (List Char)
  | [], se => (se, [])
  | l :: ls, se =>
    let s := pyStrip l
    if countWS l < 6 ∨ s.isEmpty then (se, l :: ls)
    else if pyIn [':'] s then
      let p := pyPartition ':' s
      seLoop ls (dset se (pyStrip p.1) (seCoerce (pyStrip p.2)))
    else seLoop ls se

/-- The enemy frontmatter line loop; each step consumes at least one line,
so fuel `lines.length + 1` is never exhausted. -/
def eGo : Nat → List (List Char) → ESt → Except Unit ESt
  | 0, _, st => .ok st
  | _ + 1, [], st => .ok st
  | fuel + 1, l :: ls, st =>
    let stripped := pyStrip l
    if stripped.isEmpty ∨ (S "#").isPrefixOf stripped then eGo fuel ls st
    else
      let ind := countWS l
      if ind = 0 ∧ pyIn [':'] stripped then
        let p := pyPartition ':' stripped
        let k := pyStrip p.1
        let v := pyStrip p.2
        let st1 :=
          match st.curMove with
          | some m => if m.isEmpty then st else { st with moves := st.moves ++ [m], curMove := none }
          | none => st
        let st2 :=
          match st1.curSummon with
          | some m => if m.isEmpty then st1 else { st1 with summons := st1.summons ++ [m], curSummon := none }
          | none => st1
        if k = S "dialogue" then eGo fuel ls { st2 with sect := some k, subsect := none }
        else if k = S "moves" then eGo fuel ls { st2 with sect := some k }
        else if k = S "summons" then eGo fuel ls { st2 with sect := some k }
        else if !v.isEmpty then
          match enemyTopCoerce v with
          | .ok cv => eGo fuel ls { st2 with result := dset st2.result k cv }
          | .error e => .error e
        else eGo fuel ls { st2 with sect := some k }
      else if st.sect = some (S "dialogue") ∧ ind = 2 ∧ pyIn [':'] stripped then
        let k := pyStrip (pyPartition ':' stripped).1
        eGo fuel ls { st with subsect := some k, dlg := dset st.dlg k (.list []) }
      else if st.sect = some (S "dialogue") ∧ !(st.subsect.getD []).isEmpty ∧ 4 ≤ ind
          ∧ (S "- ").isPrefixOf stripped then
        let item := stripCh sq (stripCh '"' (pyStrip (stripped.drop 2)))
        let k := st.subsect.getD []
        let cur := match dget st.dlg k with | some (.list xs) => xs | _ => []
        eGo fuel ls { st with dlg := dset st.dlg k (.list (cur ++ [.str item])) }
      else if st.sect = some (S "moves") ∧ ind = 2 ∧ (S "- name:").isPrefixOf stripped then
        let st1 :=
          match st.curMove with
          | some m => if m.isEmpty then st else { st with moves := st.moves ++ [m] }
          | none => st
        eGo fuel ls { st1 with curMove := some [(S "name", .str (pyStrip (stripped.drop 7)))] }
      else if st.sect = some (S "moves") ∧ !(st.curMove.getD []).isEmpty ∧ 4 ≤ ind then
        if pyIn [':'] stripped then
          let p := pyPartition ':' stripped
          let k := pyStrip p.1
          let v := pyStrip p.2
          if k = S "statusEffect" ∧ v.isEmpty then
            let r := seLoop ls []
            eGo fuel r.2 { st with curMove := some (dset (st.curMove.getD []) k (.dict r.1)) }
          else
            match moveCoerce v with
            | .ok cv => eGo fuel ls { st with curMove := some (dset (st.curMove.getD []) k cv) }
            | .error e => .error e
        else eGo fuel ls st
      else if st.sect = some (S "summons") ∧ ind = 2 ∧ (S "- id:").isPrefixOf stripped then
        let st1 :=
          match st.curSummon with
          | some m => if m.isEmpty then st else { st with summons := st.summons ++ [m] }
          | none => st
        eGo fuel ls { st1 with curSummon := some [(S "id", .str (pyStrip (stripped.drop 5)))] }
      else if st.sect = some (S "summons") ∧ !(st.curSummon.getD []).isEmpty ∧ 4 ≤ ind then
        if pyIn [':'] stripped then
          let p := pyPartition ':' stripped
          let k := pyStrip p.1
          let v := stripCh sq (stripCh '"' (pyStrip p.2))
          match summonCoerce v with
          | .ok cv => eGo fuel ls { st with curSummon := some (dset (st.curSummon.getD []) k cv) }
          | .error e => .error e
        else eGo fuel ls st
      else eGo fuel ls st

/-- The wrap-up after the enemy line loop. -/
def eFinish (st : ESt) : Dict :=
  let st1 :=
    match st.curMove with
    | some m => if m.isEmpty then st else { st with moves := st.moves ++ [m] }
    | none => st
  let st2 :=
    match st1.curSummon with
    | some m => if m.isEmpty then st1 else { st1 with summons := st1.summons ++ [m] }
    | none => st1
  let r := if st2.dlg.isEmpty then st2.result else dset st2.result (S "dialogue") (.dict st2.dlg)
  let r := if st2.moves.isEmpty then r else dset r (S "moves") (.list (st2.moves.map .dict))
  if st2.summons.isEmpty then r else dset r (S "summons") (.list (st2.summons.map .dict))

/-- The enemy frontmatter text parse: the line loop and its wrap-up. -/
def eLines (lines : List (List Char)) : Except Unit Dict :=
  (eGo (lines.length + 1) lines ⟨[], none, none, none, none, [], [], []⟩).map eFinish

def parse_enemy_frontmatter (content : List Char) : Except Unit (Dict × List Char) :=
  if !((S "---").isPrefixOf content) then .ok ([], content)
  else
    match findSub (S "\n---\n") (content.drop 3) with
    | none => .ok ([], content)
    | some i =>
      (eLines (splitLines ((content.drop 3).take i))).map
        (fun fm => (fm, (content.drop 3).drop (i + 5)))

/-- parse_enemy_file: frontmatter plus the optional free-text description. -/
def parse_enemy_file (content : List Char) : Except Unit Dict :=
  (parse_enemy_frontmatter content).map (fun fb =>
    let desc := pyStrip fb.2
    if desc.isEmpty then fb.1 else dset fb.1 (S "description") (.str desc))

/-! GraphValidator: validate_scenes.  Errors are gathered scene by scene in
input order, choices before actions, each in document order.  The
unreachable-scene warnings iterate a Python set, whose order is not
determined by the input; the warning builder therefore takes the
enumeration order as a parameter, constrained in the theorems to be a
permutation of the unreachable id set. -/

def sceneIdOf (s : Dict) : PyVal := (dget s (S "id")).getD .none

def choicesOf (s : Dict) : List PyVal :=
  match dget s (S "choices") with
  | some (.list l) => l
  | _ => []

def actionsOf (s : Dict) : List PyVal :=
  match dget s (S "actions") with
  | some (.list l) => l
  | _ => []

def choiceTargetOf (c : PyVal) : PyVal :=
  match c with
  | .dict d => (dget d (S "target")).getD .none
  | _ => .none

def actionGet (a : PyVal) (k : List Char) : PyVal :=
  match a with
  | .dict d => (dget d k).getD .none
  | _ => .none

def isSentinel (t : PyVal) : Bool :=
  pvBeq t (.str (S "_roll")) || pvBeq t (.str (S "_battle"))

/-- Membership of a target in the scene id set, by Python equality. -/
def inIds (ids : List PyVal) (t : PyVal) : Bool := ids.any (fun i => pvBeq t i)

/-- Rendering of a value inside an f-string message.  Values other than
strings and ints cannot reach a message in compiled content (unhashable
targets crash the set insertions first, modelled separately). -/
def pyFmt : PyVal → List Char
  | .str s => s
  | .int n => S (toString n)
  | .bool b => if b then S "True" else S "False"
  | .none => S "None"
  | .nan => S "nan"
  | .inf b => if b then S "-inf" else S "inf"
  | .rat _ => S "<float>"
  | .list _ => S "<list>"
  | .dict _ => S "<dict>"

def quoteW (s : List Char) : List Char := sq :: (s ++ [sq])

def danglingChoiceMsg (sid t : PyVal) : List Char :=
  S "Scene " ++ quoteW (pyFmt sid) ++ S ": choice target " ++ quoteW (pyFmt t)
    ++ S " does not exist"

def danglingActionMsg (sid : PyVal) (k : List Char) (t : PyVal) : List Char :=
  S "Scene " ++ quoteW (pyFmt sid) ++ S ": action " ++ k ++ [' '] ++ quoteW (pyFmt t)
    ++ S " does not exist"

def unreachWarnMsg (sid : PyVal) : List Char :=
  S "Scene " ++ quoteW (pyFmt sid) ++ S " is never referenced (unreachable)"

def rollKeys : List (List Char) := [S "success_target", S "failure_target"]
def battleKeys : List (List Char) := [S "victory_target", S "defeat_target", S "flee_target"]

/-- Errors of one choice: a non-sentinel target that is not a scene id. -/
def choiceErrs (ids : List PyVal) (sid : PyVal) (c : PyVal) : List (List Char) :=
  let t := choiceTargetOf c
  if isSentinel t then [] else if inIds ids t then [] else [danglingChoiceMsg sid t]

/-- Errors of one action target field: a truthy value that is not a scene
id (no sentinel exemption in the action branch of the source). -/
def actionKeyErrs (ids : List PyVal) (sid : PyVal) (a : PyVal) (k : List Char) : List (List Char) :=
  let t := actionGet a k
  if pyTruthy t then (if inIds ids t then [] else [danglingActionMsg sid k t]) else []

def actionErrs (ids : List PyVal) (sid : PyVal) (a : PyVal) : List (List Char) :=
  if pvBeq (actionGet a (S "type")) (.str (S "roll_dice")) then
    (rollKeys.map (actionKeyErrs ids sid a)).flatten
  else if pvBeq (actionGet a (S "type")) (.str (S "start_battle")) then
    (battleKeys.map (actionKeyErrs ids sid a)).flatten
  else []

def sceneErrs (ids : List PyVal) (s : Dict) : List (List Char) :=
  ((choicesOf s).map (choiceErrs ids (sceneIdOf s))).flatten
    ++ ((actionsOf s).map (actionErrs ids (sceneIdOf s))).flatten

/-- The id set: a scene id list deduplicated (membership is all that the
error checks use). -/
def idsOf (scenes : List Dict) : List PyVal :=
  (scenes.map sceneIdOf).foldl (fun acc i => if acc.any (fun j => pvBeq j i) then acc else acc ++ [i]) []

def validateErrors (scenes : List Dict) : List (List Char) :=
  (scenes.map (sceneErrs (idsOf scenes))).flatten

/-- The targets added to referenced_ids: non-sentinel choice targets and
truthy dice/battle action targets (dangling ones included, as in the
source, which adds before checking). -/
def referencedOf (scenes : List Dict) : List PyVal :=
  (scenes.map (fun s =>
    ((choicesOf s).map (fun c =>
      let t := choiceTargetOf c
      if isSentinel t then [] else [t])).flatten
    ++ ((actionsOf s).map (fun a =>
      if pvBeq (actionGet a (S "type")) (.str (S "roll_dice")) then
        (rollKeys.map (fun k => if pyTruthy (actionGet a k) then [actionGet a k] else [])).flatten
      else if pvBeq (actionGet a (S "type")) (.str (S "start_battle")) then
        (battleKeys.map (fun k => if pyTruthy (actionGet a k) then [actionGet a k] else [])).flatten
      else [])).flatten)).flatten

/-- The unreachable id set scene_ids - referenced_ids - {start}, as a
canonical list (first-occurrence order); the set has no order in Python. -/
def unreachableOf (scenes : List Dict) : List PyVal :=
  (idsOf scenes).filter (fun i =>
    !(referencedOf scenes).any (fun t => pvBeq t i) && !pvBeq i (.str (S "start")))

/-- validate_scenes, with the warning enumeration order a parameter (the
iteration order of the Python set is unspecified). -/
def validate_scenes (order : List PyVal) (scenes : List Dict) :
    List (List Char) × List (List Char) :=
  (validateErrors scenes, order.map unreachWarnMsg)

/-! The driver (main): order of writes and exits.  The filesystem surface
is abstracted to the inputs main reads: the theme validation errors, the
scene directory listing with each file's read result, and the optional
enemy directory listing. -/

inductive OutFile where
  | theme
  | story
  | enemies
  deriving DecidableEq

structure MainIn where
  themeErrors : List (List Char)
  sceneFiles : Option (List (List Char × Except Unit (List Char)))
  enemyFiles : Option (List (List Char × Except Unit (List Char)))

def parseScenes (files : List (List Char × Except Unit (List Char))) :
    Except Unit (List Dict) :=
  files.mapM (fun f => f.2.bind (parse_scene_file f.1))

def parseEnemies (files : List (List Char × Except Unit (List Char))) :
    Except Unit (List Dict) :=
  files.mapM (fun f => (f.2.bind parse_enemy_file).map (fun e =>
    if (dget e (S "id")).isNone then dset e (S "id") (.str f.1) else e))

/-- Duplicate-id check (ids.count(id) > 1 for some id). -/
def hasDupIds (scenes : List Dict) : Bool :=
  let ids := scenes.map sceneIdOf
  ids.any (fun i => 1 < (ids.filter (fun j => pvBeq j i)).length)

/-- Values whose insertion into a Python set raises TypeError. -/
def unhashableV : PyVal → Bool
  | .list _ => true
  | .dict _ => true
  | _ => false

/-- Conditions under which validate_scenes itself raises (set insertions of
unhashable values, iteration over a non-list actions value): the run then
aborts with an uncaught exception, before any further output is written. -/
def validateCrash (scenes : List Dict) : Bool :=
  (scenes.map sceneIdOf).any unhashableV
  || scenes.any (fun s =>
      (match dget s (S "actions") with
       | some v => pyTruthy v && !(match v with | .list _ => true | _ => false)
       | none => false)
      || (actionsOf s).any (fun a =>
           (pvBeq (actionGet a (S "type")) (.str (S "roll_dice"))
             && rollKeys.any (fun k => unhashableV (actionGet a k)))
           || (pvBeq (actionGet a (S "type")) (.str (S "start_battle"))
             && battleKeys.any (fun k => unhashableV (actionGet a k)))))

/-- The enemy stage of the driver, entered after theme and story have been
written: the enemy directory is optional, enemy-stage fatal errors exit 1
after the first two writes, and on success the enemies output is the last
write. -/
def enemyStage (ef : Option (List (List Char × Except Unit (List Char)))) :
    Nat × List OutFile :=
  match ef with
  | none => (0, [.theme, .story])
  | some efiles =>
    if efiles.isEmpty then (0, [.theme, .story]) else
    match parseEnemies efiles with
    | .error _ => (1, [.theme, .story])
    | .ok es =>
      if hasDupIds es then (1, [.theme, .story])
      else (0, [.theme, .story, .enemies])

/-- The driver, returning the exit code and the list of output files
written, in write order.  Warnings do not affect control flow. -/
def mainRun (inp : MainIn) : Nat × List OutFile :=
  if !inp.themeErrors.isEmpty then (1, []) else
  match inp.sceneFiles with
  | none => (1, [.theme])
  | some files =>
    if files.isEmpty then (1, [.theme]) else
    match parseScenes files with
    | .error _ => (1, [.theme])
    | .ok scenes =>
      if hasDupIds scenes then (1, [.theme]) else
      if validateCrash scenes then (1, [.theme]) else
      if !(validateErrors scenes).isEmpty then (1, [.theme]) else
      enemyStage inp.enemyFiles

/-! Lemmas about the embedding, used by the claim theorems. -/

theorem dget_ddel_self (d : Dict) (k : List Char) : dget (ddel d k) k = none := by
  induction d with
  | nil => rfl
  | cons e r ih =>
    simp only [ddel, List.filter] at *
    by_cases h : e.1 = k
    · simp [h, bne_self_eq_false, ih]
    · have : (e.1 != k) = true := by simp [bne, h]
      simp [this, dget, h, ih]

theorem dget_ddel_ne (d : Dict) (k k' : List Char) (h : k' ≠ k) :
    dget (ddel d k') k = dget d k := by
  induction d with
  | nil => rfl
  | cons e r ih =>
    simp only [ddel, List.filter] at *
    by_cases he : e.1 = k'
    · have : (e.1 != k') = false := by simp [bne, he]
      have hek : e.1 ≠ k := by rw [he]; exact h
      simp [this, dget, hek, ih]
    · have : (e.1 != k') = true := by simp [bne, he]
      simp only [this]
      by_cases hek : e.1 = k
      · simp [dget, hek]
      · simp [dget, hek, ih]

theorem dget_ite_ddel_ne (d : Dict) (k k' : List Char) (c : Prop) [Decidable c]
    (h : k' ≠ k) : dget (if c then ddel d k' else d) k = dget d k := by
  by_cases hc : c
  · simp [hc, dget_ddel_ne d k k' h]
  · simp [hc]

theorem dget_ite_ddel_self (d : Dict) (k : List Char) (c : Prop) [Decidable c] :
    dget (if c then ddel d k else d) k = if c then none else dget d k := by
  by_cases hc : c
  · simp [hc, dget_ddel_self]
  · simp [hc]

section RegexLemmas

variable {α : Type}

/-- When a pattern occurs nowhere, re.sub removes nothing. -/
theorem reSubGo_of_search_none (m : List Char → Option (Nat × α)) :
    ∀ s : List Char, reSearch m s = none → reSubGo m s.length s = s := by
  intro s
  induction s with
  | nil => intro _; rfl
  | cons c rest ih =>
    intro h
    simp only [reSearch] at h
    cases hm : m (c :: rest) with
    | some x => rw [hm] at h; exact absurd h (by simp)
    | none =>
      rw [hm] at h
      simp only [List.length_cons, reSubGo, hm]
      rw [ih h]

theorem reSubAll_of_search_none (m : List Char → Option (Nat × α)) (s : List Char)
    (h : reSearch m s = none) : reSubAll m s = s :=
  reSubGo_of_search_none m s h

end RegexLemmas

theorem findSub_cons_neg (pat : List Char) (c : Char) (s : List Char)
    (h : pat.isPrefixOf (c :: s) = false) :
    findSub pat (c :: s) = (findSub pat s).map (· + 1) := by
  simp [findSub, h]

theorem isPrefixOf_singleton_false (c x : Char) (s : List Char) (hx : x ≠ c) :
    ([c].isPrefixOf (x :: s)) = false := by
  simp only [List.isPrefixOf, Bool.and_eq_false_iff]
  left
  exact beq_eq_false_iff_ne.mpr (fun he => hx he.symm)

theorem findSub_singleton_none (c : Char) :
    ∀ xs : List Char, c ∉ xs → findSub [c] xs = none := by
  intro xs
  induction xs with
  | nil => intro _; rfl
  | cons x r ih =>
    intro h
    have hx : x ≠ c := fun he => h (he ▸ List.mem_cons_self x r)
    have hr : c ∉ r := fun hm => h (List.mem_cons_of_mem x hm)
    rw [findSub_cons_neg _ _ _ (isPrefixOf_singleton_false c x r hx), ih hr]
    rfl

theorem findSub_singleton_append (c : Char) :
    ∀ xs ys : List Char, c ∉ xs → findSub [c] (xs ++ c :: ys) = some xs.length := by
  intro xs ys
  induction xs with
  | nil =>
    intro _
    simp [findSub, List.isPrefixOf]
  | cons x r ih =>
    intro h
    have hx : x ≠ c := fun he => h (he ▸ List.mem_cons_self x r)
    have hr : c ∉ r := fun hm => h (List.mem_cons_of_mem x hm)
    rw [List.cons_append,
      findSub_cons_neg _ _ _ (isPrefixOf_singleton_false c x (r ++ c :: ys) hx), ih hr]
    rfl

theorem pyIn_singleton_append (c : Char) (xs ys : List Char) (h : c ∉ xs) :
    pyIn [c] (xs ++ c :: ys) = true := by
  simp [pyIn, findSub_singleton_append c xs ys h]

theorem pyPartition_append (c : Char) :
    ∀ xs ys : List Char, c ∉ xs → pyPartition c (xs ++ c :: ys) = (xs, ys) := by
  intro xs ys
  induction xs with
  | nil => intro _; simp [pyPartition]
  | cons x r ih =>
    intro h
    have hx : x ≠ c := fun he => h (he ▸ List.mem_cons_self x r)
    have hr : c ∉ r := fun hm => h (List.mem_cons_of_mem x hm)
    simp [pyPartition, hx, ih hr]

/-- The two-character arrow pattern matches first at the seam when it does
not occur in the prefix (a straddling match is impossible because the two
characters differ). -/
theorem findSub_arrow2 (a b : Char) (hab : a ≠ b) :
    ∀ pre rest : List Char, findSub [a, b] pre = none →
      findSub [a, b] (pre ++ a :: b :: rest) = some pre.length := by
  intro pre rest
  induction pre with
  | nil =>
    intro _
    simp [findSub, List.isPrefixOf]
  | cons p ps ih =>
    intro h
    simp only [findSub] at h
    by_cases hpre : ([a, b].isPrefixOf (p :: ps)) = true
    · rw [if_pos hpre] at h; exact absurd h (by simp)
    · rw [if_neg hpre] at h
      have hps : findSub [a, b] ps = none := by
        cases hf : findSub [a, b] ps with
        | none => rfl
        | some i => rw [hf] at h; exact absurd h (by simp)
      have hpre2 : ([a, b].isPrefixOf (p :: (ps ++ a :: b :: rest))) = false := by
        rcases hpb : ([a, b].isPrefixOf (p :: (ps ++ a :: b :: rest))) with _ | _
        · rfl
        · exfalso
          cases ps with
          | nil =>
            simp only [List.nil_append, List.isPrefixOf, Bool.and_eq_true, beq_iff_eq] at hpb
            exact hab hpb.2.1.symm
          | cons q qs =>
            simp only [List.cons_append, List.isPrefixOf, Bool.and_eq_true, beq_iff_eq] at hpb
            apply hpre
            simp [List.isPrefixOf, hpb.1, hpb.2.1]
      rw [List.cons_append, findSub_cons_neg _ _ _ hpre2, ih hps]
      rfl

/-- Fuel does not matter for str.split once it covers the string length. -/
theorem pySplitGo_fuel (sep : List Char) (hsep : sep ≠ []) :
    ∀ f1 f2 s, s.length ≤ f1 → s.length ≤ f2 →
      pySplitGo sep f1 s = pySplitGo sep f2 s := by
  intro f1
  induction f1 with
  | zero =>
    intro f2 s h1 _
    have hs : s = [] := List.length_eq_zero.mp (Nat.le_zero.mp h1)
    subst hs
    have hfs : findSub sep [] = none := by
      have : (sep.isPrefixOf ([] : List Char)) = false := by
        cases sep with
        | nil => exact absurd rfl hsep
        | cons a r => rfl
      simp [findSub, this]
    cases f2 with
    | zero => rfl
    | succ g => simp [pySplitGo, hfs]
  | succ f ih =>
    intro f2 s h1 h2
    cases hfs : findSub sep s with
    | none =>
      cases f2 with
      | zero =>
        have hs : s = [] := List.length_eq_zero.mp (Nat.le_zero.mp h2)
        subst hs; simp [pySplitGo, hfs]
      | succ g => simp [pySplitGo, hfs]
    | some i =>
      have hsne : s ≠ [] := by
        intro he
        subst he
        have : (sep.isPrefixOf ([] : List Char)) = false := by
          cases sep with
          | nil => exact absurd rfl hsep
          | cons a r => rfl
        simp [findSub, this] at hfs
      have hlen : 1 ≤ s.length := by
        cases s with
        | nil => exact absurd rfl hsne
        | cons a r => simp
      cases f2 with
      | zero => omega
      | succ g =>
        simp only [pySplitGo, hfs]
        have hd : (s.drop (i + sep.length)).length ≤ f := by
          have := List.length_drop (i + sep.length) s
          have hsl : 1 ≤ sep.length := by
            cases sep with
            | nil => exact absurd rfl hsep
            | cons a r => simp
          omega
        have hd2 : (s.drop (i + sep.length)).length ≤ g := by
          have := List.length_drop (i + sep.length) s
          have hsl : 1 ≤ sep.length := by
            cases sep with
            | nil => exact absurd rfl hsep
            | cons a r => simp
          omega
        rw [ih g _ hd hd2]

/-- One unfolding of str.split at the first occurrence of the separator. -/
theorem pySplit_cons (sep s : List Char) (hsep : sep ≠ []) (i : Nat)
    (h : findSub sep s = some i) :
    pySplit sep s = s.take i :: pySplit sep (s.drop (i + sep.length)) := by
  have hne : sep.isEmpty = false := by cases sep with | nil => exact absurd rfl hsep | cons a r => rfl
  have hsne : s ≠ [] := by
    intro he
    subst he
    have : (sep.isPrefixOf ([] : List Char)) = false := by
      cases sep with
      | nil => exact absurd rfl hsep
      | cons a r => rfl
    simp [findSub, this] at h
  simp only [pySplit, hne, Bool.false_eq_true, if_false]
  cases hs : s with
  | nil => exact absurd hs hsne
  | cons a r =>
    rw [← hs]
    have hlen : s.length = r.length + 1 := by rw [hs]; simp
    rw [hlen]
    simp only [pySplitGo, h]
    congr 1
    apply pySplitGo_fuel sep hsep
    · have := List.length_drop (i + sep.length) s
      have hsl : 1 ≤ sep.length := by
        cases sep with
        | nil => exact absurd rfl hsep
        | cons a r => simp
      omega
    · exact Nat.le_refl _

/-- str.split when the separator does not occur. -/
theorem pySplit_none (sep s : List Char) (hsep : sep ≠ [])
    (h : findSub sep s = none) : pySplit sep s = [s] := by
  have hne : sep.isEmpty = false := by cases sep with | nil => exact absurd rfl hsep | cons a r => rfl
  simp only [pySplit, hne, Bool.false_eq_true, if_false]
  cases s with
  | nil => rfl
  | cons a r => simp [pySplitGo, h]

/-- Stripping removes a leading whitespace character. -/
theorem pyStrip_ws_cons (w : Char) (hw : isWS w = true) (v : List Char) :
    pyStrip (w :: v) = pyStrip v := by
  simp [pyStrip, List.dropWhile, hw]

/-- Whether a parsed value is a Python string. -/
def pvIsStr : PyVal → Bool
  | .str _ => true
  | _ => false

set_option maxRecDepth 10000

/-! The claim theorems. -/

/-- C9: a file whose content does not begin with the opening delimiter, or
begins with one but contains no subsequent closing delimiter line, parses
as empty frontmatter with the entire original content as the body, in both
the scene and the enemy frontmatter parser, and raises no error. -/
theorem c9_missing_delimiters (content : List Char) :
    ((S "---").isPrefixOf content = false →
      parse_frontmatter content = .ok ([], content)
        ∧ parse_enemy_frontmatter content = .ok ([], content))
    ∧ ((S "---").isPrefixOf content = true →
        findSub (S "\n---\n") (content.drop 3) = none →
        parse_frontmatter content = .ok ([], content)
          ∧ parse_enemy_frontmatter content = .ok ([], content)) := by
  constructor
  · intro h
    exact ⟨by simp [parse_frontmatter, h], by simp [parse_enemy_frontmatter, h]⟩
  · intro h hf
    exact ⟨by simp [parse_frontmatter, h, hf], by simp [parse_enemy_frontmatter, h, hf]⟩

/-- Witness for C9 at two concrete files: one with no opening delimiter and
one whose frontmatter block never closes. -/
theorem c9_missing_delimiters_witness :
    (parse_frontmatter (S "freeform scene text") = .ok ([], S "freeform scene text")
      ∧ parse_enemy_frontmatter (S "freeform scene text") = .ok ([], S "freeform scene text"))
    ∧ (parse_frontmatter (S "---\nid: x\nno closing line") =
          .ok ([], S "---\nid: x\nno closing line")
      ∧ parse_enemy_frontmatter (S "---\nid: x\nno closing line") =
          .ok ([], S "---\nid: x\nno closing line")) :=
  ⟨(c9_missing_delimiters (S "freeform scene text")).1 (by decide),
   (c9_missing_delimiters (S "---\nid: x\nno closing line")).2 (by decide) (by decide)⟩

/-- C5: extraction runs requires, sets, require_items, heals, uses, battle,
sfx in that fixed order; consequently the legacy single group
(uses: Potion, heals: 5) yields uses equal to the one item and heals equal
to the number, with no heals fragment left in the label or the uses list;
the standalone-group order of the P6 line behaves the same way. -/
theorem c5_extraction_order :
    parse_choices (S "- Drink the potion (uses: Potion, heals: 5) -> rest_area") =
      [[(S "label", PyVal.str (S "Drink the potion")),
        (S "target", PyVal.str (S "rest_area")),
        (S "uses", PyVal.list [PyVal.str (S "Potion")]),
        (S "heals", PyVal.int 5)]]
    ∧ pyIn (S "heals") (S "Drink the potion") = false
    ∧ pyIn (S "heals") (S "Potion") = false
    ∧ parse_choices (S "- Use Coffee (uses: Coffee) (heals: 5) (battle: item) → _battle") =
      [[(S "label", PyVal.str (S "Use Coffee")), (S "target", PyVal.str (S "_battle")),
        (S "uses", PyVal.list [PyVal.str (S "Coffee")]), (S "heals", PyVal.int 5),
        (S "battle_action", PyVal.str (S "item"))]]
    ∧ parse_choices (S "- Sip brew (uses: Elixir, heals: 12) → lab") =
      [[(S "label", PyVal.str (S "Sip brew")), (S "target", PyVal.str (S "lab")),
        (S "uses", PyVal.list [PyVal.str (S "Elixir")]), (S "heals", PyVal.int 12)]] :=
  ⟨rfl, by decide, by decide, rfl, rfl⟩

/-- C4 counterexample: on a line with two arrows the code's target is the
segment between the first and second arrow, not everything right of the
first arrow as the claim states. -/
theorem c4_counterexample :
    parse_choices (S "- Go → a → b") =
      [[(S "label", PyVal.str (S "Go")), (S "target", PyVal.str (S "a"))]]
    ∧ S "a" ≠ S "a → b" :=
  ⟨rfl, by decide⟩

/-- C6 counterexample: a scene frontmatter scalar `true` stays the literal
string, not the boolean the claimed coercion chain would produce. -/
theorem c6_counterexample :
    parse_frontmatter (S "---\nflag: true\n---\nrest") =
      .ok ([(S "flag", PyVal.str (S "true"))], S "rest")
    ∧ PyVal.str (S "true") ≠ PyVal.bool true :=
  ⟨rfl, fun h => PyVal.noConfusion h⟩

/-- C7 counterexample: an explicitly empty `bg:` key yields an empty list
that is kept in the serialized scene record (the bg omission check only
tests for None). -/
theorem c7_counterexample :
    (parse_scene_file (S "scene1") (S "---\nid: s\nbg:\n---\nHello")).map
        (fun sc => dget sc (S "bg")) = .ok (some (PyVal.list []))
    ∧ pyTruthy (PyVal.list []) = false :=
  ⟨rfl, rfl⟩

/-- C8 counterexample: an `id:` key with empty value makes the compiled
scene id an empty list, not a non-empty string. -/
theorem c8_counterexample :
    (parse_scene_file (S "intro") (S "---\nid:\n---\nX")).map
        (fun sc => dget sc (S "id")) = .ok (some (PyVal.list []))
    ∧ pvIsStr (PyVal.list []) = false ∧ pyTruthy (PyVal.list []) = false :=
  ⟨rfl, rfl, rfl⟩

/-- C2 counterexample: a roll_dice action whose success_target is the
sentinel `_roll` still produces a dangling-reference error, because the
action branch has no sentinel exemption. -/
theorem c2_counterexample :
    validateErrors [[(S "id", PyVal.str (S "s")), (S "choices", PyVal.list []),
        (S "actions", PyVal.list [PyVal.dict [(S "type", PyVal.str (S "roll_dice")),
          (S "success_target", PyVal.str (S "_roll"))]])]] =
      [danglingActionMsg (PyVal.str (S "s")) (S "success_target") (PyVal.str (S "_roll"))]
    ∧ isSentinel (PyVal.str (S "_roll")) = true
    ∧ danglingActionMsg (PyVal.str (S "s")) (S "success_target") (PyVal.str (S "_roll")) ≠ [] :=
  ⟨rfl, rfl, by decide⟩

/-- C3 counterexample: with two unreachable scenes, an admissible set
enumeration in the reverse of input order yields a different warning list,
so the warnings are not emitted in input order identically across runs. -/
theorem c3_counterexample :
    ([PyVal.str (S "beta"), PyVal.str (S "alpha")] : List PyVal).Perm
        (unreachableOf [[(S "id", PyVal.str (S "start")), (S "choices", PyVal.list [])],
          [(S "id", PyVal.str (S "alpha")), (S "choices", PyVal.list [])],
          [(S "id", PyVal.str (S "beta")), (S "choices", PyVal.list [])]])
    ∧ (validate_scenes [PyVal.str (S "beta"), PyVal.str (S "alpha")]
        [[(S "id", PyVal.str (S "start")), (S "choices", PyVal.list [])],
          [(S "id", PyVal.str (S "alpha")), (S "choices", PyVal.list [])],
          [(S "id", PyVal.str (S "beta")), (S "choices", PyVal.list [])]]).2 ≠
      (validate_scenes [PyVal.str (S "alpha"), PyVal.str (S "beta")]
        [[(S "id", PyVal.str (S "start")), (S "choices", PyVal.list [])],
          [(S "id", PyVal.str (S "alpha")), (S "choices", PyVal.list [])],
          [(S "id", PyVal.str (S "beta")), (S "choices", PyVal.list [])]]).2 := by
  constructor
  · have h : unreachableOf [[(S "id", PyVal.str (S "start")), (S "choices", PyVal.list [])],
        [(S "id", PyVal.str (S "alpha")), (S "choices", PyVal.list [])],
        [(S "id", PyVal.str (S "beta")), (S "choices", PyVal.list [])]] =
        [PyVal.str (S "alpha"), PyVal.str (S "beta")] := rfl
    rw [h]
    exact List.Perm.swap _ _ _
  · decide

/-- Emptiness of a flattened map, elementwise. -/
theorem flatten_map_nil {β γ : Type} (f : β → List γ) :
    ∀ l : List β, ((l.map f).flatten = []) ↔ ∀ x ∈ l, f x = [] := by
  intro l
  induction l with
  | nil => simp
  | cons a r ih => simp [ih]

/-- The named target fields the validator checks for an action, by its
type tag. -/
def actionTargetKeys (a : PyVal) : List (List Char) :=
  if pvBeq (actionGet a (S "type")) (.str (S "roll_dice")) then rollKeys
  else if pvBeq (actionGet a (S "type")) (.str (S "start_battle")) then battleKeys
  else []

theorem choiceErrs_nil (ids : List PyVal) (sid c : PyVal) :
    choiceErrs ids sid c = [] ↔
      (isSentinel (choiceTargetOf c) = true ∨ inIds ids (choiceTargetOf c) = true) := by
  unfold choiceErrs
  by_cases h1 : isSentinel (choiceTargetOf c) = true
  · simp [h1]
  · by_cases h2 : inIds ids (choiceTargetOf c) = true
    · simp [h1, h2]
    · simp [h1, h2]

theorem actionKeyErrs_nil (ids : List PyVal) (sid a : PyVal) (k : List Char) :
    actionKeyErrs ids sid a k = [] ↔
      (pyTruthy (actionGet a k) = true → inIds ids (actionGet a k) = true) := by
  unfold actionKeyErrs
  by_cases ht : pyTruthy (actionGet a k) = true
  · by_cases hi : inIds ids (actionGet a k) = true
    · simp [ht, hi]
    · simp [ht, hi]
  · simp [ht]

theorem actionErrs_nil (ids : List PyVal) (sid a : PyVal) :
    actionErrs ids sid a = [] ↔
      ∀ k ∈ actionTargetKeys a,
        pyTruthy (actionGet a k) = true → inIds ids (actionGet a k) = true := by
  unfold actionErrs actionTargetKeys
  by_cases h1 : pvBeq (actionGet a (S "type")) (.str (S "roll_dice")) = true
  · simp only [h1, if_true]
    rw [flatten_map_nil]
    constructor
    · intro h k hk; exact (actionKeyErrs_nil ids sid a k).mp (h k hk)
    · intro h k hk; exact (actionKeyErrs_nil ids sid a k).mpr (h k hk)
  · by_cases h2 : pvBeq (actionGet a (S "type")) (.str (S "start_battle")) = true
    · simp only [h1, h2, if_true, Bool.false_eq_true, if_false]
      rw [flatten_map_nil]
      constructor
      · intro h k hk; exact (actionKeyErrs_nil ids sid a k).mp (h k hk)
      · intro h k hk; exact (actionKeyErrs_nil ids sid a k).mpr (h k hk)
    · simp [h1, h2]

/-- C2 (amended): a choice target produces a dangling-reference error
exactly when it is neither a sentinel nor an existing scene id; an action
target field (of a roll_dice or start_battle action) produces one exactly
when its value is truthy and not an existing scene id, with no sentinel
exemption for action targets. -/
theorem c2_dangling_iff (scenes : List Dict) :
    validateErrors scenes = [] ↔
      ∀ s ∈ scenes,
        (∀ c ∈ choicesOf s,
          isSentinel (choiceTargetOf c) = true
            ∨ inIds (idsOf scenes) (choiceTargetOf c) = true)
        ∧ ∀ a ∈ actionsOf s, ∀ k ∈ actionTargetKeys a,
            pyTruthy (actionGet a k) = true → inIds (idsOf scenes) (actionGet a k) = true := by
  unfold validateErrors
  rw [flatten_map_nil]
  constructor
  · intro h s hs
    have hsn := h s hs
    unfold sceneErrs at hsn
    rw [List.append_eq_nil] at hsn
    obtain ⟨hA, hB⟩ := hsn
    rw [flatten_map_nil] at hA hB
    exact ⟨fun c hc => (choiceErrs_nil _ _ _).mp (hA c hc),
           fun a ha => (actionErrs_nil _ _ _).mp (hB a ha)⟩
  · intro h s hs
    unfold sceneErrs
    rw [List.append_eq_nil]
    constructor
    · rw [flatten_map_nil]
      exact fun c hc => (choiceErrs_nil _ _ _).mpr ((h s hs).1 c hc)
    · rw [flatten_map_nil]
      exact fun a ha => (actionErrs_nil _ _ _).mpr ((h s hs).2 a ha)

/-- Witness for C2 at a concrete scene set whose only choice target is the
battle sentinel: the validator reports no error. -/
theorem c2_dangling_iff_witness :
    validateErrors [[(S "id", PyVal.str (S "start")),
      (S "choices", PyVal.list [PyVal.dict [(S "target", PyVal.str (S "_battle"))]])]] = [] := by
  apply (c2_dangling_iff _).mpr
  intro s hs
  rw [List.mem_singleton] at hs
  subst hs
  constructor
  · intro c hc
    have hch : choicesOf [(S "id", PyVal.str (S "start")),
        (S "choices", PyVal.list [PyVal.dict [(S "target", PyVal.str (S "_battle"))]])] =
      [PyVal.dict [(S "target", PyVal.str (S "_battle"))]] := rfl
    rw [hch, List.mem_singleton] at hc
    subst hc
    left
    rfl
  · intro a ha
    have hact : actionsOf [(S "id", PyVal.str (S "start")),
        (S "choices", PyVal.list [PyVal.dict [(S "target", PyVal.str (S "_battle"))]])] =
      ([] : List PyVal) := rfl
    rw [hact] at ha
    exact absurd ha (List.not_mem_nil a)

/-- C3 (amended): the error list is independent of the set enumeration
order (it iterates scenes in input order, choices before actions); the
warning list varies with the enumeration of the unreachable set and is
determined only up to permutation. -/
theorem c3_stable_errors_warning_set (scenes : List Dict) (o₁ o₂ : List PyVal)
    (h₁ : o₁.Perm (unreachableOf scenes)) (h₂ : o₂.Perm (unreachableOf scenes)) :
    (validate_scenes o₁ scenes).1 = (validate_scenes o₂ scenes).1
    ∧ (validate_scenes o₁ scenes).2.Perm ((validate_scenes o₂ scenes).2) :=
  ⟨rfl, (h₁.trans h₂.symm).map unreachWarnMsg⟩

/-- Witness for C3 at the three-scene set with two unreachable scenes and
the two enumeration orders of its unreachable set. -/
theorem c3_stable_errors_witness :
    (validate_scenes [PyVal.str (S "beta"), PyVal.str (S "alpha")]
        [[(S "id", PyVal.str (S "start")), (S "choices", PyVal.list [])],
          [(S "id", PyVal.str (S "alpha")), (S "choices", PyVal.list [])],
          [(S "id", PyVal.str (S "beta")), (S "choices", PyVal.list [])]]).1 =
      (validate_scenes [PyVal.str (S "alpha"), PyVal.str (S "beta")]
        [[(S "id", PyVal.str (S "start")), (S "choices", PyVal.list [])],
          [(S "id", PyVal.str (S "alpha")), (S "choices", PyVal.list [])],
          [(S "id", PyVal.str (S "beta")), (S "choices", PyVal.list [])]]).1
    ∧ (validate_scenes [PyVal.str (S "beta"), PyVal.str (S "alpha")]
        [[(S "id", PyVal.str (S "start")), (S "choices", PyVal.list [])],
          [(S "id", PyVal.str (S "alpha")), (S "choices", PyVal.list [])],
          [(S "id", PyVal.str (S "beta")), (S "choices", PyVal.list [])]]).2.Perm
      ((validate_scenes [PyVal.str (S "alpha"), PyVal.str (S "beta")]
        [[(S "id", PyVal.str (S "start")), (S "choices", PyVal.list [])],
          [(S "id", PyVal.str (S "alpha")), (S "choices", PyVal.list [])],
          [(S "id", PyVal.str (S "beta")), (S "choices", PyVal.list [])]]).2) := by
  have h : unreachableOf [[(S "id", PyVal.str (S "start")), (S "choices", PyVal.list [])],
      [(S "id", PyVal.str (S "alpha")), (S "choices", PyVal.list [])],
      [(S "id", PyVal.str (S "beta")), (S "choices", PyVal.list [])]] =
      [PyVal.str (S "alpha"), PyVal.str (S "beta")] := rfl
  exact c3_stable_errors_warning_set _ _ _
    (by rw [h]; exact List.Perm.swap _ _ _) (by rw [h])

/-- The scene id entry survives all deletions of buildScene. -/
theorem dget_buildScene_id (stem : List Char) (fm : Dict) (blocks : List (List Char))
    (choices : List Dict) :
    dget (buildScene stem fm blocks choices) (S "id") =
      some ((dget fm (S "id")).getD (PyVal.str stem)) := by
  simp only [buildScene]
  rw [dget_ite_ddel_ne _ _ _ _ (by decide), dget_ite_ddel_ne _ _ _ _ (by decide),
    dget_ite_ddel_ne _ _ _ _ (by decide), dget_ite_ddel_ne _ _ _ _ (by decide),
    dget_ite_ddel_ne _ _ _ _ (by decide), dget_ite_ddel_ne _ _ _ _ (by decide),
    dget_ite_ddel_ne _ _ _ _ (by decide), dget_ite_ddel_ne _ _ _ _ (by decide)]
  rfl

/-- C8 (amended): the compiled scene id equals the frontmatter id value
when the key is present (whatever was parsed there: a string, an integer
for a digit value, or an empty list for an empty value) and falls back to
the file stem when it is absent. -/
theorem c8_id_from_frontmatter_or_stem (stem content : List Char) (fm : Dict)
    (body : List Char) (h : parse_frontmatter content = .ok (fm, body)) :
    ∃ sc, parse_scene_file stem content = .ok sc
      ∧ dget sc (S "id") = some ((dget fm (S "id")).getD (PyVal.str stem))
      ∧ (dget fm (S "id") = none → dget sc (S "id") = some (PyVal.str stem)) := by
  refine ⟨buildScene stem fm (parse_text_blocks body).1 (parse_text_blocks body).2, ?_, ?_, ?_⟩
  · unfold parse_scene_file
    rw [h]
    rfl
  · exact dget_buildScene_id stem fm _ _
  · intro hn
    rw [dget_buildScene_id stem fm _ _, hn]
    rfl

/-- Witness for C8: a scene with an explicit id keeps it, and the same
content with no id falls back to the stem. -/
theorem c8_id_witness :
    (∃ sc, parse_scene_file (S "forest") (S "---\nid: start\n---\nB") = .ok sc
      ∧ dget sc (S "id") =
          some ((dget [(S "id", PyVal.str (S "start"))] (S "id")).getD (PyVal.str (S "forest")))
      ∧ (dget [(S "id", PyVal.str (S "start"))] (S "id") = none →
          dget sc (S "id") = some (PyVal.str (S "forest"))))
    ∧ (∃ sc, parse_scene_file (S "forest") (S "---\nbg: a.svg\n---\nB") = .ok sc
      ∧ dget sc (S "id") =
          some ((dget [(S "bg", PyVal.str (S "a.svg"))] (S "id")).getD (PyVal.str (S "forest")))
      ∧ (dget [(S "bg", PyVal.str (S "a.svg"))] (S "id") = none →
          dget sc (S "id") = some (PyVal.str (S "forest")))) :=
  ⟨c8_id_from_frontmatter_or_stem (S "forest") (S "---\nid: start\n---\nB")
      [(S "id", PyVal.str (S "start"))] (S "B") rfl,
   c8_id_from_frontmatter_or_stem (S "forest") (S "---\nbg: a.svg\n---\nB")
      [(S "bg", PyVal.str (S "a.svg"))] (S "B") rfl⟩

/-! Lookup characterizations of the choice dict and the scene dict after
their deletion chains. -/

theorem dget_choiceDict_rf (l t : List Char) (rf sf ri us : List (List Char))
    (sfx : Option (List Char)) (h : Option Nat) (b : Option (List Char)) :
    dget (choiceDict l t rf sf ri us sfx h b) (S "require_flags") =
      if rf.isEmpty then none else some (PyVal.list (rf.map PyVal.str)) := by
  simp only [choiceDict]
  rw [dget_ite_ddel_ne _ _ _ _ (by decide), dget_ite_ddel_ne _ _ _ _ (by decide),
    dget_ite_ddel_ne _ _ _ _ (by decide), dget_ite_ddel_ne _ _ _ _ (by decide),
    dget_ite_ddel_ne _ _ _ _ (by decide), dget_ite_ddel_ne _ _ _ _ (by decide),
    dget_ite_ddel_self]
  by_cases hc : rf.isEmpty = true
  · simp [hc]
  · simp only [hc, Bool.false_eq_true, if_false, if_neg]
    rfl

theorem dget_choiceDict_sf (l t : List Char) (rf sf ri us : List (List Char))
    (sfx : Option (List Char)) (h : Option Nat) (b : Option (List Char)) :
    dget (choiceDict l t rf sf ri us sfx h b) (S "set_flags") =
      if sf.isEmpty then none else some (PyVal.list (sf.map PyVal.str)) := by
  simp only [choiceDict]
  rw [dget_ite_ddel_ne _ _ _ _ (by decide), dget_ite_ddel_ne _ _ _ _ (by decide),
    dget_ite_ddel_ne _ _ _ _ (by decide), dget_ite_ddel_ne _ _ _ _ (by decide),
    dget_ite_ddel_ne _ _ _ _ (by decide), dget_ite_ddel_self,
    dget_ite_ddel_ne _ _ _ _ (by decide)]
  by_cases hc : sf.isEmpty = true
  · simp [hc]
  · simp only [hc, Bool.false_eq_true, if_false, if_neg]
    rfl

theorem dget_choiceDict_ri (l t : List Char) (rf sf ri us : List (List Char))
    (sfx : Option (List Char)) (h : Option Nat) (b : Option (List Char)) :
    dget (choiceDict l t rf sf ri us sfx h b) (S "require_items") =
      if ri.isEmpty then none else some (PyVal.list (ri.map PyVal.str)) := by
  simp only [choiceDict]
  rw [dget_ite_ddel_ne _ _ _ _ (by decide), dget_ite_ddel_ne _ _ _ _ (by decide),
    dget_ite_ddel_ne _ _ _ _ (by decide), dget_ite_ddel_ne _ _ _ _ (by decide),
    dget_ite_ddel_self, dget_ite_ddel_ne _ _ _ _ (by decide),
    dget_ite_ddel_ne _ _ _ _ (by decide)]
  by_cases hc : ri.isEmpty = true
  · simp [hc]
  · simp only [hc, Bool.false_eq_true, if_false, if_neg]
    rfl

theorem dget_choiceDict_us (l t : List Char) (rf sf ri us : List (List Char))
    (sfx : Option (List Char)) (h : Option Nat) (b : Option (List Char)) :
    dget (choiceDict l t rf sf ri us sfx h b) (S "uses") =
      if us.isEmpty then none else some (PyVal.list (us.map PyVal.str)) := by
  simp only [choiceDict]
  rw [dget_ite_ddel_ne _ _ _ _ (by decide), dget_ite_ddel_ne _ _ _ _ (by decide),
    dget_ite_ddel_ne _ _ _ _ (by decide), dget_ite_ddel_self,
    dget_ite_ddel_ne _ _ _ _ (by decide), dget_ite_ddel_ne _ _ _ _ (by decide),
    dget_ite_ddel_ne _ _ _ _ (by decide)]
  by_cases hc : us.isEmpty = true
  · simp [hc]
  · simp only [hc, Bool.false_eq_true, if_false, if_neg]
    rfl

theorem dget_choiceDict_heals (l t : List Char) (rf sf ri us : List (List Char))
    (sfx : Option (List Char)) (h : Option Nat) (b : Option (List Char)) :
    dget (choiceDict l t rf sf ri us sfx h b) (S "heals") =
      if h.isNone then none else some (optNat h) := by
  simp only [choiceDict]
  rw [dget_ite_ddel_ne _ _ _ _ (by decide), dget_ite_ddel_ne _ _ _ _ (by decide),
    dget_ite_ddel_self, dget_ite_ddel_ne _ _ _ _ (by decide),
    dget_ite_ddel_ne _ _ _ _ (by decide), dget_ite_ddel_ne _ _ _ _ (by decide),
    dget_ite_ddel_ne _ _ _ _ (by decide)]
  by_cases hc : h.isNone = true
  · simp [hc]
  · simp only [hc, Bool.false_eq_true, if_false, if_neg]
    rfl

theorem dget_choiceDict_battle (l t : List Char) (rf sf ri us : List (List Char))
    (sfx : Option (List Char)) (h : Option Nat) (b : Option (List Char)) :
    dget (choiceDict l t rf sf ri us sfx h b) (S "battle_action") =
      if b.isNone then none else some (optStr b) := by
  simp only [choiceDict]
  rw [dget_ite_ddel_ne _ _ _ _ (by decide), dget_ite_ddel_self,
    dget_ite_ddel_ne _ _ _ _ (by decide), dget_ite_ddel_ne _ _ _ _ (by decide),
    dget_ite_ddel_ne _ _ _ _ (by decide), dget_ite_ddel_ne _ _ _ _ (by decide),
    dget_ite_ddel_ne _ _ _ _ (by decide)]
  by_cases hc : b.isNone = true
  · simp [hc]
  · simp only [hc, Bool.false_eq_true, if_false, if_neg]
    rfl

theorem dget_choiceDict_sfx (l t : List Char) (rf sf ri us : List (List Char))
    (sfx : Option (List Char)) (h : Option Nat) (b : Option (List Char)) :
    dget (choiceDict l t rf sf ri us sfx h b) (S "sfx") =
      if sfx.isNone then none else some (optStr sfx) := by
  simp only [choiceDict]
  rw [dget_ite_ddel_self, dget_ite_ddel_ne _ _ _ _ (by decide),
    dget_ite_ddel_ne _ _ _ _ (by decide), dget_ite_ddel_ne _ _ _ _ (by decide),
    dget_ite_ddel_ne _ _ _ _ (by decide), dget_ite_ddel_ne _ _ _ _ (by decide),
    dget_ite_ddel_ne _ _ _ _ (by decide)]
  by_cases hc : sfx.isNone = true
  · simp [hc]
  · simp only [hc, Bool.false_eq_true, if_false, if_neg]
    rfl

/-- Generic collection-key characterization of buildScene is spelled per
key; here set_flags. -/
theorem dget_buildScene_set_flags (stem : List Char) (fm : Dict)
    (blocks : List (List Char)) (choices : List Dict) :
    dget (buildScene stem fm blocks choices) (S "set_flags") =
      if pyTruthy ((dget fm (S "set_flags")).getD (PyVal.list [])) then
        some ((dget fm (S "set_flags")).getD (PyVal.list [])) else none := by
  simp only [buildScene]
  rw [dget_ite_ddel_ne _ _ _ _ (by decide), dget_ite_ddel_ne _ _ _ _ (by decide),
    dget_ite_ddel_ne _ _ _ _ (by decide), dget_ite_ddel_ne _ _ _ _ (by decide),
    dget_ite_ddel_ne _ _ _ _ (by decide), dget_ite_ddel_ne _ _ _ _ (by decide),
    dget_ite_ddel_ne _ _ _ _ (by decide), dget_ite_ddel_self]
  by_cases hc : pyTruthy ((dget fm (S "set_flags")).getD (PyVal.list [])) = true
  · rw [if_neg (by simp [hc]), if_pos hc]
    rfl
  · rw [if_pos (by simp [Bool.not_eq_true] at hc; simp [hc]), if_neg hc]

theorem dget_buildScene_require_flags (stem : List Char) (fm : Dict)
    (blocks : List (List Char)) (choices : List Dict) :
    dget (buildScene stem fm blocks choices) (S "require_flags") =
      if pyTruthy ((dget fm (S "require_flags")).getD (PyVal.list [])) then
        some ((dget fm (S "require_flags")).getD (PyVal.list [])) else none := by
  simp only [buildScene]
  rw [dget_ite_ddel_ne _ _ _ _ (by decide), dget_ite_ddel_ne _ _ _ _ (by decide),
    dget_ite_ddel_ne _ _ _ _ (by decide), dget_ite_ddel_ne _ _ _ _ (by decide),
    dget_ite_ddel_ne _ _ _ _ (by decide), dget_ite_ddel_ne _ _ _ _ (by decide),
    dget_ite_ddel_self, dget_ite_ddel_ne _ _ _ _ (by decide)]
  by_cases hc : pyTruthy ((dget fm (S "require_flags")).getD (PyVal.list [])) = true
  · rw [if_neg (by simp [hc]), if_pos hc]
    rfl
  · rw [if_pos (by simp [Bool.not_eq_true] at hc; simp [hc]), if_neg hc]

theorem dget_buildScene_add_items (stem : List Char) (fm : Dict)
    (blocks : List (List Char)) (choices : List Dict) :
    dget (buildScene stem fm blocks choices) (S "add_items") =
      if pyTruthy ((dget fm (S "add_items")).getD (PyVal.list [])) then
        some ((dget fm (S "add_items")).getD (PyVal.list [])) else none := by
  simp only [buildScene]
  rw [dget_ite_ddel_ne _ _ _ _ (by decide), dget_ite_ddel_ne _ _ _ _ (by decide),
    dget_ite_ddel_ne _ _ _ _ (by decide), dget_ite_ddel_ne _ _ _ _ (by decide),
    dget_ite_ddel_ne _ _ _ _ (by decide), dget_ite_ddel_self,
    dget_ite_ddel_ne _ _ _ _ (by decide), dget_ite_ddel_ne _ _ _ _ (by decide)]
  by_cases hc : pyTruthy ((dget fm (S "add_items")).getD (PyVal.list [])) = true
  · rw [if_neg (by simp [hc]), if_pos hc]
    rfl
  · rw [if_pos (by simp [Bool.not_eq_true] at hc; simp [hc]), if_neg hc]

theorem dget_buildScene_remove_items (stem : List Char) (fm : Dict)
    (blocks : List (List Char)) (choices : List Dict) :
    dget (buildScene stem fm blocks choices) (S "remove_items") =
      if pyTruthy ((dget fm (S "remove_items")).getD (PyVal.list [])) then
        some ((dget fm (S "remove_items")).getD (PyVal.list [])) else none := by
  simp only [buildScene]
  rw [dget_ite_ddel_ne _ _ _ _ (by decide), dget_ite_ddel_ne _ _ _ _ (by decide),
    dget_ite_ddel_ne _ _ _ _ (by decide), dget_ite_ddel_ne _ _ _ _ (by decide),
    dget_ite_ddel_self, dget_ite_ddel_ne _ _ _ _ (by decide),
    dget_ite_ddel_ne _ _ _ _ (by decide), dget_ite_ddel_ne _ _ _ _ (by decide)]
  by_cases hc : pyTruthy ((dget fm (S "remove_items")).getD (PyVal.list [])) = true
  · rw [if_neg (by simp [hc]), if_pos hc]
    rfl
  · rw [if_pos (by simp [Bool.not_eq_true] at hc; simp [hc]), if_neg hc]

theorem dget_buildScene_actions (stem : List Char) (fm : Dict)
    (blocks : List (List Char)) (choices : List Dict) :
    dget (buildScene stem fm blocks choices) (S "actions") =
      if pyTruthy ((dget fm (S "actions")).getD (PyVal.list [])) then
        some ((dget fm (S "actions")).getD (PyVal.list [])) else none := by
  simp only [buildScene]
  rw [dget_ite_ddel_ne _ _ _ _ (by decide), dget_ite_ddel_ne _ _ _ _ (by decide),
    dget_ite_ddel_ne _ _ _ _ (by decide), dget_ite_ddel_self,
    dget_ite_ddel_ne _ _ _ _ (by decide), dget_ite_ddel_ne _ _ _ _ (by decide),
    dget_ite_ddel_ne _ _ _ _ (by decide), dget_ite_ddel_ne _ _ _ _ (by decide)]
  by_cases hc : pyTruthy ((dget fm (S "actions")).getD (PyVal.list [])) = true
  · rw [if_neg (by simp [hc]), if_pos hc]
    rfl
  · rw [if_pos (by simp [Bool.not_eq_true] at hc; simp [hc]), if_neg hc]

theorem dget_buildScene_chars (stem : List Char) (fm : Dict)
    (blocks : List (List Char)) (choices : List Dict) :
    dget (buildScene stem fm blocks choices) (S "chars") =
      if pyTruthy ((dget fm (S "chars")).getD (PyVal.list [])) then
        some ((dget fm (S "chars")).getD (PyVal.list [])) else none := by
  simp only [buildScene]
  rw [dget_ite_ddel_ne _ _ _ _ (by decide), dget_ite_ddel_ne _ _ _ _ (by decide),
    dget_ite_ddel_self, dget_ite_ddel_ne _ _ _ _ (by decide),
    dget_ite_ddel_ne _ _ _ _ (by decide), dget_ite_ddel_ne _ _ _ _ (by decide),
    dget_ite_ddel_ne _ _ _ _ (by decide), dget_ite_ddel_ne _ _ _ _ (by decide)]
  by_cases hc : pyTruthy ((dget fm (S "chars")).getD (PyVal.list [])) = true
  · rw [if_neg (by simp [hc]), if_pos hc]
    rfl
  · rw [if_pos (by simp [Bool.not_eq_true] at hc; simp [hc]), if_neg hc]

theorem dget_buildScene_bg (stem : List Char) (fm : Dict)
    (blocks : List (List Char)) (choices : List Dict) :
    dget (buildScene stem fm blocks choices) (S "bg") =
      if isNoneV ((dget fm (S "bg")).getD PyVal.none) then none
      else some ((dget fm (S "bg")).getD PyVal.none) := by
  simp only [buildScene]
  rw [dget_ite_ddel_ne _ _ _ _ (by decide), dget_ite_ddel_self,
    dget_ite_ddel_ne _ _ _ _ (by decide), dget_ite_ddel_ne _ _ _ _ (by decide),
    dget_ite_ddel_ne _ _ _ _ (by decide), dget_ite_ddel_ne _ _ _ _ (by decide),
    dget_ite_ddel_ne _ _ _ _ (by decide), dget_ite_ddel_ne _ _ _ _ (by decide)]
  by_cases hc : isNoneV ((dget fm (S "bg")).getD PyVal.none) = true
  · rw [if_pos hc, if_pos hc]
  · rw [if_neg hc, if_neg hc]
    rfl

theorem dget_buildScene_music (stem : List Char) (fm : Dict)
    (blocks : List (List Char)) (choices : List Dict) :
    dget (buildScene stem fm blocks choices) (S "music") =
      if isNoneV ((dget fm (S "music")).getD PyVal.none) then none
      else some ((dget fm (S "music")).getD PyVal.none) := by
  simp only [buildScene]
  rw [dget_ite_ddel_self, dget_ite_ddel_ne _ _ _ _ (by decide),
    dget_ite_ddel_ne _ _ _ _ (by decide), dget_ite_ddel_ne _ _ _ _ (by decide),
    dget_ite_ddel_ne _ _ _ _ (by decide), dget_ite_ddel_ne _ _ _ _ (by decide),
    dget_ite_ddel_ne _ _ _ _ (by decide), dget_ite_ddel_ne _ _ _ _ (by decide)]
  by_cases hc : isNoneV ((dget fm (S "music")).getD PyVal.none) = true
  · rw [if_pos hc, if_pos hc]
  · rw [if_neg hc, if_neg hc]
    rfl

/-- Every parsed choice comes from the modifier extraction. -/
theorem lineToChoice_eq_extract (raw : List Char) (c : Dict)
    (h : lineToChoice raw = some c) : ∃ a b, c = extractChoice a b := by
  simp only [lineToChoice] at h
  by_cases h1 : (pyStrip raw).isEmpty = true
  · rw [if_pos h1] at h
    exact absurd h (by simp)
  · rw [if_neg h1] at h
    by_cases h2 : (!((['-'] : List Char).isPrefixOf (pyStrip raw))) = true
    · rw [if_pos h2] at h
      exact absurd h (by simp)
    · rw [if_neg h2] at h
      cases hsp : splitArrow (pyStrip ((pyStrip raw).drop 1)) with
      | some lt =>
        rw [hsp] at h
        refine ⟨lt.1, lt.2, ?_⟩
        injection h with h'
        exact h'.symm
      | none =>
        rw [hsp] at h
        exact absurd h (by simp)

/-- Every parsed choice is an instance of the choice dict constructor. -/
theorem extractChoice_eq_choiceDict (a b : List Char) :
    ∃ l t rf sf ri us sfx h bt, extractChoice a b = choiceDict l t rf sf ri us sfx h bt :=
  ⟨_, _, _, _, _, _, _, _, _, rfl⟩

/-- Every compiled scene is an instance of the scene dict constructor. -/
theorem parse_scene_file_eq (stem content : List Char) (sc : Dict)
    (h : parse_scene_file stem content = .ok sc) :
    ∃ fm body, parse_frontmatter content = .ok (fm, body)
      ∧ sc = buildScene stem fm (parse_text_blocks body).1 (parse_text_blocks body).2 := by
  unfold parse_scene_file at h
  cases hp : parse_frontmatter content with
  | error e =>
    rw [hp] at h
    simp [Except.map] at h
  | ok fb =>
    obtain ⟨f1, f2⟩ := fb
    rw [hp] at h
    simp only [Except.map] at h
    injection h with h'
    exact ⟨f1, f2, hp ▸ rfl, h'.symm⟩

/-- C7 (amended): every optional choice modifier key is either absent or
carries a nonempty list, an int, or a string (never None or an empty
collection); every optional scene collection key is either absent or
truthy; bg and music are either absent or non-None — but bg/music may
carry an empty list when the source holds an explicitly empty key, since
their omission check only tests for None. -/
theorem c7_optional_field_omission :
    (∀ raw c, lineToChoice raw = some c →
      (dget c (S "require_flags") = none
        ∨ ∃ l, dget c (S "require_flags") = some (PyVal.list l) ∧ l ≠ [])
      ∧ (dget c (S "set_flags") = none
        ∨ ∃ l, dget c (S "set_flags") = some (PyVal.list l) ∧ l ≠ [])
      ∧ (dget c (S "require_items") = none
        ∨ ∃ l, dget c (S "require_items") = some (PyVal.list l) ∧ l ≠ [])
      ∧ (dget c (S "uses") = none
        ∨ ∃ l, dget c (S "uses") = some (PyVal.list l) ∧ l ≠ [])
      ∧ (dget c (S "heals") = none ∨ ∃ m : Int, dget c (S "heals") = some (PyVal.int m))
      ∧ (dget c (S "battle_action") = none
        ∨ ∃ s, dget c (S "battle_action") = some (PyVal.str s))
      ∧ (dget c (S "sfx") = none ∨ ∃ s, dget c (S "sfx") = some (PyVal.str s)))
    ∧ (∀ stem content sc, parse_scene_file stem content = .ok sc →
      (dget sc (S "set_flags") = none
        ∨ ∃ v, dget sc (S "set_flags") = some v ∧ pyTruthy v = true)
      ∧ (dget sc (S "require_flags") = none
        ∨ ∃ v, dget sc (S "require_flags") = some v ∧ pyTruthy v = true)
      ∧ (dget sc (S "add_items") = none
        ∨ ∃ v, dget sc (S "add_items") = some v ∧ pyTruthy v = true)
      ∧ (dget sc (S "remove_items") = none
        ∨ ∃ v, dget sc (S "remove_items") = some v ∧ pyTruthy v = true)
      ∧ (dget sc (S "actions") = none
        ∨ ∃ v, dget sc (S "actions") = some v ∧ pyTruthy v = true)
      ∧ (dget sc (S "chars") = none
        ∨ ∃ v, dget sc (S "chars") = some v ∧ pyTruthy v = true)
      ∧ (dget sc (S "bg") = none ∨ ∃ v, dget sc (S "bg") = some v ∧ isNoneV v = false)
      ∧ (dget sc (S "music") = none
        ∨ ∃ v, dget sc (S "music") = some v ∧ isNoneV v = false)) := by
  constructor
  · intro raw c hc
    obtain ⟨a, b, rfl⟩ := lineToChoice_eq_extract raw c hc
    obtain ⟨l, t, rf, sf, ri, us, sfx, hh, bt, heq⟩ := extractChoice_eq_choiceDict a b
    rw [heq]
    refine ⟨?_, ?_, ?_, ?_, ?_, ?_, ?_⟩
    · rw [dget_choiceDict_rf]
      by_cases hb : rf.isEmpty = true
      · left; simp [hb]
      · right
        refine ⟨rf.map PyVal.str, by simp [hb], ?_⟩
        cases rf with
        | nil => exact (hb rfl).elim
        | cons x xs => simp
    · rw [dget_choiceDict_sf]
      by_cases hb : sf.isEmpty = true
      · left; simp [hb]
      · right
        refine ⟨sf.map PyVal.str, by simp [hb], ?_⟩
        cases sf with
        | nil => exact (hb rfl).elim
        | cons x xs => simp
    · rw [dget_choiceDict_ri]
      by_cases hb : ri.isEmpty = true
      · left; simp [hb]
      · right
        refine ⟨ri.map PyVal.str, by simp [hb], ?_⟩
        cases ri with
        | nil => exact (hb rfl).elim
        | cons x xs => simp
    · rw [dget_choiceDict_us]
      by_cases hb : us.isEmpty = true
      · left; simp [hb]
      · right
        refine ⟨us.map PyVal.str, by simp [hb], ?_⟩
        cases us with
        | nil => exact (hb rfl).elim
        | cons x xs => simp
    · rw [dget_choiceDict_heals]
      cases hh with
      | none => left; rfl
      | some n => right; exact ⟨Int.ofNat n, by simp [optNat]⟩
    · rw [dget_choiceDict_battle]
      cases bt with
      | none => left; rfl
      | some s => right; exact ⟨s, by simp [optStr]⟩
    · rw [dget_choiceDict_sfx]
      cases sfx with
      | none => left; rfl
      | some s => right; exact ⟨s, by simp [optStr]⟩
  · intro stem content sc hsc
    obtain ⟨fm, body, _, rfl⟩ := parse_scene_file_eq stem content sc hsc
    refine ⟨?_, ?_, ?_, ?_, ?_, ?_, ?_, ?_⟩
    · rw [dget_buildScene_set_flags]
      by_cases hb : pyTruthy ((dget fm (S "set_flags")).getD (PyVal.list [])) = true
      · right; exact ⟨_, by rw [if_pos hb], hb⟩
      · left; rw [if_neg hb]
    · rw [dget_buildScene_require_flags]
      by_cases hb : pyTruthy ((dget fm (S "require_flags")).getD (PyVal.list [])) = true
      · right; exact ⟨_, by rw [if_pos hb], hb⟩
      · left; rw [if_neg hb]
    · rw [dget_buildScene_add_items]
      by_cases hb : pyTruthy ((dget fm (S "add_items")).getD (PyVal.list [])) = true
      · right; exact ⟨_, by rw [if_pos hb], hb⟩
      · left; rw [if_neg hb]
    · rw [dget_buildScene_remove_items]
      by_cases hb : pyTruthy ((dget fm (S "remove_items")).getD (PyVal.list [])) = true
      · right; exact ⟨_, by rw [if_pos hb], hb⟩
      · left; rw [if_neg hb]
    · rw [dget_buildScene_actions]
      by_cases hb : pyTruthy ((dget fm (S "actions")).getD (PyVal.list [])) = true
      · right; exact ⟨_, by rw [if_pos hb], hb⟩
      · left; rw [if_neg hb]
    · rw [dget_buildScene_chars]
      by_cases hb : pyTruthy ((dget fm (S "chars")).getD (PyVal.list [])) = true
      · right; exact ⟨_, by rw [if_pos hb], hb⟩
      · left; rw [if_neg hb]
    · rw [dget_buildScene_bg]
      by_cases hb : isNoneV ((dget fm (S "bg")).getD PyVal.none) = true
      · left; rw [if_pos hb]
      · right
        refine ⟨_, by rw [if_neg hb], ?_⟩
        simp only [Bool.not_eq_true] at hb
        exact hb
    · rw [dget_buildScene_music]
      by_cases hb : isNoneV ((dget fm (S "music")).getD PyVal.none) = true
      · left; rw [if_pos hb]
      · right
        refine ⟨_, by rw [if_neg hb], ?_⟩
        simp only [Bool.not_eq_true] at hb
        exact hb

/-- Witness for C7 at a concrete modifier-free choice line and a concrete
scene with no optional fields. -/
theorem c7_optional_field_omission_witness :
    (dget [(S "label", PyVal.str (S "Go")), (S "target", PyVal.str (S "next"))]
        (S "require_flags") = none
      ∨ ∃ l, dget [(S "label", PyVal.str (S "Go")), (S "target", PyVal.str (S "next"))]
        (S "require_flags") = some (PyVal.list l) ∧ l ≠ [])
    ∧ (dget [(S "id", PyVal.str (S "s")),
          (S "textBlocks", PyVal.list [PyVal.str (S "B")]), (S "choices", PyVal.list [])]
        (S "bg") = none
      ∨ ∃ v, dget [(S "id", PyVal.str (S "s")),
          (S "textBlocks", PyVal.list [PyVal.str (S "B")]), (S "choices", PyVal.list [])]
        (S "bg") = some v ∧ isNoneV v = false) :=
  ⟨(c7_optional_field_omission.1 (S "- Go -> next")
      [(S "label", PyVal.str (S "Go")), (S "target", PyVal.str (S "next"))] rfl).1,
   ((c7_optional_field_omission.2 (S "s") (S "---\nid: s\n---\nB")
      [(S "id", PyVal.str (S "s")),
        (S "textBlocks", PyVal.list [PyVal.str (S "B")]),
        (S "choices", PyVal.list [])] rfl).2.2.2.2.2.2).1⟩

set_option maxHeartbeats 2000000

/-- A single top-level `key: value` frontmatter line in a scene file
produces exactly the digit-or-string coercion of its value. -/
theorem fmLines_single_scalar (k v : List Char) (hcol : ':' ∉ k)
    (hstrip : pyStrip (k ++ ':' :: ' ' :: v) = k ++ ':' :: ' ' :: v)
    (hind : countWS (k ++ ':' :: ' ' :: v) = 0)
    (hk : pyStrip k = k) (hv : pyStrip v = v) (hvne : v ≠ [])
    (hka : k ≠ S "actions") (hkc : k ≠ S "chars")
    (hdash : ((S "- ").isPrefixOf (k ++ ':' :: ' ' :: v)) = false) :
    fmLines [k ++ ':' :: ' ' :: v] = .ok [(k, intCoerce v)] := by
  have hne : (k ++ ':' :: ' ' :: v).isEmpty = false := by cases k <;> rfl
  have hin : pyIn [':'] (k ++ ':' :: ' ' :: v) = true := pyIn_singleton_append ':' k (' ' :: v) hcol
  have hpart : pyPartition ':' (k ++ ':' :: ' ' :: v) = (k, ' ' :: v) :=
    pyPartition_append ':' k (' ' :: v) hcol
  have hsv : pyStrip (' ' :: v) = v := by rw [pyStrip_ws_cons ' ' rfl v, hv]
  have hvempty : v.isEmpty = false := by
    cases v with
    | nil => exact (hvne rfl).elim
    | cons a r => rfl
  have hstep : fmStep initFM (k ++ ':' :: ' ' :: v) =
      .ok { initFM with fm := [(k, intCoerce v)], curKey := some k, curList := none } := by
    simp only [fmStep, hstrip, hne, Bool.false_eq_true, if_false, initFM, hind, hin, hpart,
      hk, hsv, hdash, Option.isSome_none, hvempty, hka, hkc]
    rfl
  unfold fmLines
  simp only [List.foldlM, hstep]
  rfl

/-- A single top-level `key: value` frontmatter line in an enemy file
produces exactly the top-level coercion of its value (or the build abort
that coercion models for non-finite floats). -/
theorem eLines_single_scalar (k v : List Char) (hcol : ':' ∉ k)
    (hstrip : pyStrip (k ++ ':' :: ' ' :: v) = k ++ ':' :: ' ' :: v)
    (hind : countWS (k ++ ':' :: ' ' :: v) = 0)
    (hk : pyStrip k = k) (hv : pyStrip v = v) (hvne : v ≠ [])
    (hkd : k ≠ S "dialogue") (hkm : k ≠ S "moves") (hks : k ≠ S "summons")
    (hhash : ((S "#").isPrefixOf (k ++ ':' :: ' ' :: v)) = false) :
    eLines [k ++ ':' :: ' ' :: v] = (enemyTopCoerce v).map (fun cv => [(k, cv)]) := by
  have hne : (k ++ ':' :: ' ' :: v).isEmpty = false := by cases k <;> rfl
  have hin : pyIn [':'] (k ++ ':' :: ' ' :: v) = true := pyIn_singleton_append ':' k (' ' :: v) hcol
  have hpart : pyPartition ':' (k ++ ':' :: ' ' :: v) = (k, ' ' :: v) :=
    pyPartition_append ':' k (' ' :: v) hcol
  have hsv : pyStrip (' ' :: v) = v := by rw [pyStrip_ws_cons ' ' rfl v, hv]
  have hvempty : v.isEmpty = false := by
    cases v with
    | nil => exact (hvne rfl).elim
    | cons a r => rfl
  unfold eLines
  simp only [List.length_cons, List.length_nil, eGo, hstrip, hne, hhash, Bool.false_eq_true,
    if_false, Bool.or_self, hind, hin, hpart, hk, hsv, hkd, hkm, hks, hvempty]
  cases hec : enemyTopCoerce v with
  | ok cv =>
    simp only [eGo]
    rfl
  | error e =>
    rfl

/-- C6 (amended): a scene frontmatter scalar is coerced only by the
digit-sequence-to-int rule and otherwise kept as the literal string (no
float, boolean or quote handling); an enemy top-level scalar runs the
int, then float (whole floats collapsing back to int), then boolean
chain, also without quote stripping. -/
theorem c6_scalar_coercion :
    (∀ k v : List Char, ':' ∉ k →
      pyStrip (k ++ ':' :: ' ' :: v) = k ++ ':' :: ' ' :: v →
      countWS (k ++ ':' :: ' ' :: v) = 0 →
      pyStrip k = k → pyStrip v = v → v ≠ [] →
      k ≠ S "actions" → k ≠ S "chars" →
      ((S "- ").isPrefixOf (k ++ ':' :: ' ' :: v)) = false →
      fmLines [k ++ ':' :: ' ' :: v] =
        .ok [(k, if pyIsDigit v = true then PyVal.int (Int.ofNat (digitsToNat v))
                 else PyVal.str v)])
    ∧ (∀ k v : List Char, ':' ∉ k →
      pyStrip (k ++ ':' :: ' ' :: v) = k ++ ':' :: ' ' :: v →
      countWS (k ++ ':' :: ' ' :: v) = 0 →
      pyStrip k = k → pyStrip v = v → v ≠ [] →
      k ≠ S "dialogue" → k ≠ S "moves" → k ≠ S "summons" →
      ((S "#").isPrefixOf (k ++ ':' :: ' ' :: v)) = false →
      eLines [k ++ ':' :: ' ' :: v] = (enemyTopCoerce v).map (fun cv => [(k, cv)]))
    ∧ (∀ (v : List Char) (q : DecRat), pyIsDigit v = false → pyFloatParse v = .finite q →
      enemyTopCoerce v = .ok (if dIsInt q then PyVal.int (dToInt q) else PyVal.rat q))
    ∧ (∀ v : List Char, pyIsDigit v = false → pyFloatParse v = .notFloat →
      lowerS v = S "true" → enemyTopCoerce v = .ok (PyVal.bool true))
    ∧ (∀ v : List Char, pyIsDigit v = false → pyFloatParse v = .notFloat →
      lowerS v ≠ S "true" → lowerS v ≠ S "false" → enemyTopCoerce v = .ok (PyVal.str v)) := by
  refine ⟨?_, ?_, ?_, ?_, ?_⟩
  · intro k v h1 h2 h3 h4 h5 h6 h7 h8 h9
    rw [fmLines_single_scalar k v h1 h2 h3 h4 h5 h6 h7 h8 h9]
    rfl
  · intro k v h1 h2 h3 h4 h5 h6 h7 h8 h9 h10
    exact eLines_single_scalar k v h1 h2 h3 h4 h5 h6 h7 h8 h9 h10
  · intro v q h1 h2
    simp [enemyTopCoerce, h1, h2]
  · intro v h1 h2 h3
    simp [enemyTopCoerce, h1, h2, h3]
  · intro v h1 h2 h3 h4
    simp [enemyTopCoerce, h1, h2, h3, h4]

/-- Witness for C6: a digit scalar and a word scalar through the scene
parser, and a fractional float scalar through the enemy parser. -/
theorem c6_scalar_coercion_witness :
    fmLines [S "hp" ++ ':' :: ' ' :: S "07"] = .ok [(S "hp", PyVal.int 7)]
    ∧ fmLines [S "flag" ++ ':' :: ' ' :: S "true"] = .ok [(S "flag", PyVal.str (S "true"))]
    ∧ eLines [S "speed" ++ ':' :: ' ' :: S "2.5"] = .ok [(S "speed", PyVal.rat ⟨25, 10⟩)]
    ∧ enemyTopCoerce (S "2.0") = .ok (PyVal.int 2) := by
  refine ⟨?_, ?_, ?_, ?_⟩
  · rw [c6_scalar_coercion.1 (S "hp") (S "07") (by decide) (by decide) (by decide)
      (by decide) (by decide) (by decide) (by decide) (by decide) (by decide)]
    rfl
  · rw [c6_scalar_coercion.1 (S "flag") (S "true") (by decide) (by decide) (by decide)
      (by decide) (by decide) (by decide) (by decide) (by decide) (by decide)]
    rfl
  · rw [c6_scalar_coercion.2.1 (S "speed") (S "2.5") (by decide) (by decide) (by decide)
      (by decide) (by decide) (by decide) (by decide) (by decide) (by decide) (by decide)]
    rfl
  · rw [c6_scalar_coercion.2.2.1 (S "2.0") ⟨20, 10⟩ (by decide) (by decide)]
    rfl

theorem uArrow_ne : uArrow ≠ [] := by decide
theorem uArrow_len : uArrow.length = 1 := rfl
theorem aArrow_ne : aArrow ≠ [] := by decide
theorem aArrow_len : aArrow.length = 2 := rfl

theorem drop_len_of_eq (xs ys : List Char) (n : Nat) (h : n = xs.length) :
    (xs ++ ys).drop n = ys := by
  subst h
  exact List.drop_left xs ys

/-- The unicode-arrow split on a line with two unicode arrows: the label
part is the text before the first and the target part the text between the
first and the second. -/
theorem splitArrow_unicode_two (pre mid post : List Char)
    (h1 : '→' ∉ pre) (h2 : '→' ∉ mid) :
    splitArrow (pre ++ '→' :: (mid ++ '→' :: post)) = some (pyStrip pre, pyStrip mid) := by
  have hf1 : findSub uArrow (pre ++ '→' :: (mid ++ '→' :: post)) = some pre.length :=
    findSub_singleton_append '→' pre _ h1
  have hin : pyIn uArrow (pre ++ '→' :: (mid ++ '→' :: post)) = true := by
    simp [pyIn, hf1]
  have hsp : pySplit uArrow (pre ++ '→' :: (mid ++ '→' :: post)) =
      pre :: mid :: pySplit uArrow post := by
    rw [pySplit_cons uArrow _ uArrow_ne pre.length hf1]
    have ht : (pre ++ '→' :: (mid ++ '→' :: post)).take pre.length = pre :=
      List.take_left pre ('→' :: (mid ++ '→' :: post))
    have he : pre ++ '→' :: (mid ++ '→' :: post) = (pre ++ ['→']) ++ (mid ++ '→' :: post) := by
      simp
    have hd : (pre ++ '→' :: (mid ++ '→' :: post)).drop (pre.length + uArrow.length) =
        mid ++ '→' :: post := by
      rw [he]
      exact drop_len_of_eq _ _ _ (by simp [uArrow_len])
    rw [ht, hd, pySplit_cons uArrow _ uArrow_ne mid.length
      (findSub_singleton_append '→' mid post h2)]
    have ht2 : (mid ++ '→' :: post).take mid.length = mid :=
      List.take_left mid ('→' :: post)
    have he2 : mid ++ '→' :: post = (mid ++ ['→']) ++ post := by simp
    have hd2 : (mid ++ '→' :: post).drop (mid.length + uArrow.length) = post := by
      rw [he2]
      exact drop_len_of_eq _ _ _ (by simp [uArrow_len])
    rw [ht2, hd2]
  simp only [splitArrow, hin, if_pos, hsp]
  rfl

/-- The ASCII-arrow split on a line with two ASCII arrows and no unicode
arrow. -/
theorem splitArrow_ascii_two (pre mid post : List Char)
    (hu : pyIn uArrow (pre ++ '-' :: '>' :: (mid ++ '-' :: '>' :: post)) = false)
    (h1 : findSub aArrow pre = none) (h2 : findSub aArrow mid = none) :
    splitArrow (pre ++ '-' :: '>' :: (mid ++ '-' :: '>' :: post)) =
      some (pyStrip pre, pyStrip mid) := by
  have hf1 : findSub aArrow (pre ++ '-' :: '>' :: (mid ++ '-' :: '>' :: post)) =
      some pre.length :=
    findSub_arrow2 '-' '>' (by decide) pre _ h1
  have hin : pyIn aArrow (pre ++ '-' :: '>' :: (mid ++ '-' :: '>' :: post)) = true := by
    simp [pyIn, hf1]
  have hsp : pySplit aArrow (pre ++ '-' :: '>' :: (mid ++ '-' :: '>' :: post)) =
      pre :: mid :: pySplit aArrow post := by
    rw [pySplit_cons aArrow _ aArrow_ne pre.length hf1]
    have ht : (pre ++ '-' :: '>' :: (mid ++ '-' :: '>' :: post)).take pre.length = pre :=
      List.take_left pre ('-' :: '>' :: (mid ++ '-' :: '>' :: post))
    have he : pre ++ '-' :: '>' :: (mid ++ '-' :: '>' :: post) =
        (pre ++ ['-', '>']) ++ (mid ++ '-' :: '>' :: post) := by simp
    have hd : (pre ++ '-' :: '>' :: (mid ++ '-' :: '>' :: post)).drop
        (pre.length + aArrow.length) = mid ++ '-' :: '>' :: post := by
      rw [he]
      exact drop_len_of_eq _ _ _ (by simp [aArrow_len])
    rw [ht, hd, pySplit_cons aArrow _ aArrow_ne mid.length
      (findSub_arrow2 '-' '>' (by decide) mid post h2)]
    have ht2 : (mid ++ '-' :: '>' :: post).take mid.length = mid :=
      List.take_left mid ('-' :: '>' :: post)
    have he2 : mid ++ '-' :: '>' :: post = (mid ++ ['-', '>']) ++ post := by simp
    have hd2 : (mid ++ '-' :: '>' :: post).drop (mid.length + aArrow.length) = post := by
      rw [he2]
      exact drop_len_of_eq _ _ _ (by simp [aArrow_len])
    rw [ht2, hd2]
  simp only [splitArrow, hu, Bool.false_eq_true, if_false, hin, if_pos, hsp]
  rfl

/-- The ASCII-arrow split on a line with one ASCII arrow and no unicode
arrow. -/
theorem splitArrow_ascii_one (pre rest : List Char)
    (hu : pyIn uArrow (pre ++ '-' :: '>' :: rest) = false)
    (h1 : findSub aArrow pre = none) (h2 : findSub aArrow rest = none) :
    splitArrow (pre ++ '-' :: '>' :: rest) = some (pyStrip pre, pyStrip rest) := by
  have hf1 : findSub aArrow (pre ++ '-' :: '>' :: rest) = some pre.length :=
    findSub_arrow2 '-' '>' (by decide) pre _ h1
  have hin : pyIn aArrow (pre ++ '-' :: '>' :: rest) = true := by
    simp [pyIn, hf1]
  have hsp : pySplit aArrow (pre ++ '-' :: '>' :: rest) = pre :: [rest] := by
    rw [pySplit_cons aArrow _ aArrow_ne pre.length hf1]
    have ht : (pre ++ '-' :: '>' :: rest).take pre.length = pre :=
      List.take_left pre ('-' :: '>' :: rest)
    have he : pre ++ '-' :: '>' :: rest = (pre ++ ['-', '>']) ++ rest := by simp
    have hd : (pre ++ '-' :: '>' :: rest).drop (pre.length + aArrow.length) = rest := by
      rw [he]
      exact drop_len_of_eq _ _ _ (by simp [aArrow_len])
    rw [ht, hd, pySplit_none aArrow rest aArrow_ne h2]
  simp only [splitArrow, hu, Bool.false_eq_true, if_false, hin, if_pos, hsp]
  rfl

/-- C4 (amended): the splitter prefers the unicode arrow anywhere in the
line over an earlier ASCII arrow; for the chosen token, the label is the
trimmed text before its first occurrence and the target is the trimmed
text between the first and second occurrence (or the line end), not
everything right of the first arrow. -/
theorem c4_arrow_split :
    (∀ pre mid post : List Char, '→' ∉ pre → '→' ∉ mid →
      splitArrow (pre ++ '→' :: (mid ++ '→' :: post)) = some (pyStrip pre, pyStrip mid))
    ∧ (∀ pre mid post : List Char,
        pyIn uArrow (pre ++ '-' :: '>' :: (mid ++ '-' :: '>' :: post)) = false →
        findSub aArrow pre = none → findSub aArrow mid = none →
        splitArrow (pre ++ '-' :: '>' :: (mid ++ '-' :: '>' :: post)) =
          some (pyStrip pre, pyStrip mid))
    ∧ splitArrow (S "A -> B → C") = some (S "A -> B", S "C") :=
  ⟨splitArrow_unicode_two, splitArrow_ascii_two, by decide⟩

/-- Witness for C4 at concrete two-arrow lines of both arrow kinds. -/
theorem c4_arrow_split_witness :
    splitArrow (S "Go " ++ '→' :: (S " a " ++ '→' :: S " b")) =
      some (pyStrip (S "Go "), pyStrip (S " a "))
    ∧ splitArrow (S "L " ++ '-' :: '>' :: (S " m " ++ '-' :: '>' :: S " r")) =
      some (pyStrip (S "L "), pyStrip (S " m ")) :=
  ⟨c4_arrow_split.1 (S "Go ") (S " a ") (S " b") (by decide) (by decide),
   c4_arrow_split.2.1 (S "L ") (S " m ") (S " r") (by decide) (by decide) (by decide)⟩

/-- C10: a bare heals: N inside the label (no parenthesized heals group
and no other markers on the line) sets the heal amount to N while the
heals text is not removed: the compiled label is the label part unchanged,
still containing the heals fragment. -/
theorem c10_bare_heals (lbl tgt : List Char) (n : Nat)
    (hlbl : pyStrip lbl = lbl)
    (hlblE : pyStrip (lbl ++ [' ']) = lbl) (htgtE : pyStrip (' ' :: tgt) = tgt)
    (hlineStrip : pyStrip ('-' :: ' ' :: (lbl ++ ' ' :: '-' :: '>' :: ' ' :: tgt)) =
      '-' :: ' ' :: (lbl ++ ' ' :: '-' :: '>' :: ' ' :: tgt))
    (hline2 : pyStrip (lbl ++ ' ' :: '-' :: '>' :: ' ' :: tgt) =
      lbl ++ ' ' :: '-' :: '>' :: ' ' :: tgt)
    (hu : pyIn uArrow ((lbl ++ [' ']) ++ '-' :: '>' :: (' ' :: tgt)) = false)
    (ha1 : findSub aArrow (lbl ++ [' ']) = none)
    (ha2 : findSub aArrow (' ' :: tgt) = none)
    (hreq : reSearch mRequires lbl = none) (hsets : reSearch mSets lbl = none)
    (hri : reSearch mReqItems lbl = none)
    (hheals : reSearch mHeals lbl = some n)
    (hhp : reSearch mHealsParen lbl = none)
    (huse : reSearch mUses lbl = none) (hbat : reSearch mBattle lbl = none)
    (hsfx : reSearch mSfx lbl = none)
    (hcontains : pyIn (S "heals:") lbl = true) :
    lineToChoice ('-' :: ' ' :: (lbl ++ ' ' :: '-' :: '>' :: ' ' :: tgt)) =
      some [(S "label", PyVal.str lbl), (S "target", PyVal.str tgt),
            (S "heals", PyVal.int (Int.ofNat n))]
    ∧ pyIn (S "heals:") lbl = true := by
  refine ⟨?_, hcontains⟩
  have harr : splitArrow (lbl ++ ' ' :: '-' :: '>' :: ' ' :: tgt) = some (lbl, tgt) := by
    have he : lbl ++ ' ' :: '-' :: '>' :: ' ' :: tgt =
        (lbl ++ [' ']) ++ '-' :: '>' :: (' ' :: tgt) := by simp
    rw [he, splitArrow_ascii_one (lbl ++ [' ']) (' ' :: tgt) hu ha1 ha2, hlblE, htgtE]
  have hextract : extractChoice lbl tgt =
      [(S "label", PyVal.str lbl), (S "target", PyVal.str tgt),
        (S "heals", PyVal.int (Int.ofNat n))] := by
    have hsub : reSubAll mHealsParen lbl = lbl := reSubAll_of_search_none _ _ hhp
    simp only [extractChoice, hreq, hsets, hri, hheals, huse, hbat, hsfx, hsub, hlbl]
    rfl
  simp only [lineToChoice, hlineStrip]
  have hdrop : (('-' :: ' ' :: (lbl ++ ' ' :: '-' :: '>' :: ' ' :: tgt)).drop 1) =
      ' ' :: (lbl ++ ' ' :: '-' :: '>' :: ' ' :: tgt) := rfl
  rw [hdrop, pyStrip_ws_cons ' ' rfl _, hline2]
  simp only [harr, hextract]
  rfl

/-- Witness for C10 at a concrete line with a bare heals fragment. -/
theorem c10_bare_heals_witness :
    lineToChoice ('-' :: ' ' :: (S "Rest heals: 7" ++ ' ' :: '-' :: '>' :: ' ' :: S "camp")) =
      some [(S "label", PyVal.str (S "Rest heals: 7")),
            (S "target", PyVal.str (S "camp")),
            (S "heals", PyVal.int (Int.ofNat 7))]
    ∧ pyIn (S "heals:") (S "Rest heals: 7") = true :=
  c10_bare_heals (S "Rest heals: 7") (S "camp") 7 (by decide) (by decide) (by decide)
    (by decide) (by decide) (by decide) (by decide) (by decide) (by decide) (by decide)
    (by decide) (by decide) (by decide) (by decide) (by decide) (by decide) (by decide)

/-- Every run of the driver ends in one of five exit/write shapes. -/
theorem mainRun_cases (inp : MainIn) :
    mainRun inp = (1, []) ∨ mainRun inp = (1, [OutFile.theme])
    ∨ mainRun inp = (1, [OutFile.theme, OutFile.story])
    ∨ mainRun inp = (0, [OutFile.theme, OutFile.story])
    ∨ mainRun inp = (0, [OutFile.theme, OutFile.story, OutFile.enemies]) := by
  unfold mainRun enemyStage
  repeat' split
  all_goals simp

/-- C1 (amended): only a theme-stage error aborts before any write; every
scene-stage fatal error (missing directory, no files, unreadable or
unparsable file, duplicate ids, validator crash, dangling references)
exits 1 with the theme output already written; an enemy-stage fatal error
(unreadable or unparsable enemy file, duplicate enemy ids) exits 1 with
the theme and story outputs already written; the enemies output is
written only on fully successful runs; and the story output is written
only when the scene stage passed completely. -/
theorem c1_staged_writes :
    (∀ inp : MainIn, inp.themeErrors ≠ [] → mainRun inp = (1, []))
    ∧ (∀ inp : MainIn, inp.themeErrors = [] → inp.sceneFiles = none →
        mainRun inp = (1, [OutFile.theme]))
    ∧ (∀ (inp : MainIn) files, inp.themeErrors = [] → inp.sceneFiles = some files →
        (files = [] ∨ parseScenes files = .error ()) → mainRun inp = (1, [OutFile.theme]))
    ∧ (∀ (inp : MainIn) files scenes, inp.themeErrors = [] → inp.sceneFiles = some files →
        parseScenes files = .ok scenes →
        (hasDupIds scenes = true ∨ validateCrash scenes = true
          ∨ validateErrors scenes ≠ []) →
        mainRun inp = (1, [OutFile.theme]))
    ∧ (∀ (inp : MainIn) files scenes efiles, inp.themeErrors = [] →
        inp.sceneFiles = some files → files ≠ [] →
        parseScenes files = .ok scenes → hasDupIds scenes = false →
        validateCrash scenes = false → validateErrors scenes = [] →
        inp.enemyFiles = some efiles → efiles ≠ [] →
        (parseEnemies efiles = .error ()
          ∨ ∃ es, parseEnemies efiles = .ok es ∧ hasDupIds es = true) →
        mainRun inp = (1, [OutFile.theme, OutFile.story]))
    ∧ (∀ inp : MainIn, OutFile.enemies ∈ (mainRun inp).2 → (mainRun inp).1 = 0)
    ∧ (∀ inp : MainIn, OutFile.story ∈ (mainRun inp).2 →
        ∃ files scenes, inp.sceneFiles = some files ∧ parseScenes files = .ok scenes
          ∧ hasDupIds scenes = false ∧ validateErrors scenes = []) := by
  refine ⟨?_, ?_, ?_, ?_, ?_, ?_, ?_⟩
  · intro inp h
    have hte : (!inp.themeErrors.isEmpty) = true := by
      cases hh : inp.themeErrors with
      | nil => exact (h hh).elim
      | cons a r => rfl
    unfold mainRun
    rw [if_pos hte]
  · intro inp h1 h2
    simp [mainRun, h1, h2]
  · intro inp files h1 h2 h3
    rcases h3 with h3 | h3
    · subst h3
      simp [mainRun, h1, h2]
    · cases files with
      | nil => simp [mainRun, h1, h2]
      | cons f fs => simp [mainRun, h1, h2, h3]
  · intro inp files scenes h1 h2 hp hbad
    cases files with
    | nil => simp [mainRun, h1, h2]
    | cons f fs =>
      by_cases hd : hasDupIds scenes = true
      · simp [mainRun, h1, h2, hp, hd]
      · by_cases hc : validateCrash scenes = true
        · simp [mainRun, h1, h2, hp, hd, hc]
        · have herr : validateErrors scenes ≠ [] := by
            rcases hbad with hb | hb | hb
            · exact absurd hb hd
            · exact absurd hb hc
            · exact hb
          have hie : (validateErrors scenes).isEmpty = false := by
            cases hv : validateErrors scenes with
            | nil => exact (herr hv).elim
            | cons a r => rfl
          simp [mainRun, h1, h2, hp, hd, hc, hie]
  · intro inp files scenes efiles h1 h2 hfne hp hd hc hv he hene hfail
    cases files with
    | nil => exact (hfne rfl).elim
    | cons f fs =>
      cases efiles with
      | nil => exact (hene rfl).elim
      | cons e es0 =>
        rcases hfail with hfail | ⟨es, hok, hdupE⟩
        · simp [mainRun, h1, h2, hp, hd, hc, hv, enemyStage, he, hfail]
        · simp [mainRun, h1, h2, hp, hd, hc, hv, enemyStage, he, hok, hdupE]
  · intro inp h
    rcases mainRun_cases inp with h1 | h1 | h1 | h1 | h1 <;> rw [h1] at h ⊢ <;>
      first
        | exact absurd h (by decide)
        | rfl
  · intro inp h
    unfold mainRun at h
    split at h
    · exact absurd h (by decide)
    · split at h
      · exact absurd h (by decide)
      · split at h
        · exact absurd h (by decide)
        · split at h
          · exact absurd h (by decide)
          · split at h
            · exact absurd h (by decide)
            · split at h
              · exact absurd h (by decide)
              · split at h
                · exact absurd h (by decide)
                · rename_i hte hef hfiles hsf hfe hx hscenes hp hdup hcrash herr
                  refine ⟨_, _, hsf, hp, ?_, ?_⟩
                  · simp only [Bool.not_eq_true] at hdup
                    exact hdup
                  · simp only [Bool.not_eq_true, Bool.not_eq_false] at herr
                    cases hv : validateErrors _ with
                    | nil => rfl
                    | cons a r =>
                      rw [hv] at herr
                      exact absurd herr (by simp)

/-- Witness for C1 at concrete runs of each shape: a theme error, a
missing scene directory, an empty directory, a duplicate scene id, a
duplicate enemy id after a clean scene stage, and a fully successful run
with an enemy file. -/
theorem c1_staged_writes_witness :
    mainRun ⟨[S "missing theme css"], none, none⟩ = (1, [])
    ∧ mainRun ⟨[], none, none⟩ = (1, [OutFile.theme])
    ∧ mainRun ⟨[], some [], none⟩ = (1, [OutFile.theme])
    ∧ mainRun ⟨[], some [(S "a", Except.ok (S "---\nid: start\n---\nHello")),
        (S "b", Except.ok (S "---\nid: start\n---\nWorld"))], none⟩ = (1, [OutFile.theme])
    ∧ mainRun ⟨[], some [(S "a", Except.ok (S "---\nid: start\n---\nHello"))],
        some [(S "e1", Except.ok (S "---\nid: imp\n---\nGrr")),
          (S "e2", Except.ok (S "---\nid: imp\n---\nGrr"))]⟩ =
        (1, [OutFile.theme, OutFile.story])
    ∧ (mainRun ⟨[], some [(S "a", Except.ok (S "---\nid: start\n---\nHello"))],
        some [(S "e", Except.ok (S "---\nid: imp\nhp: 3\n---\n"))]⟩).1 = 0 :=
  ⟨c1_staged_writes.1 ⟨[S "missing theme css"], none, none⟩ (by decide),
   c1_staged_writes.2.1 ⟨[], none, none⟩ rfl rfl,
   c1_staged_writes.2.2.1 ⟨[], some [], none⟩ [] rfl rfl (Or.inl rfl),
   c1_staged_writes.2.2.2.1 ⟨[], some [(S "a", Except.ok (S "---\nid: start\n---\nHello")),
        (S "b", Except.ok (S "---\nid: start\n---\nWorld"))], none⟩
     [(S "a", Except.ok (S "---\nid: start\n---\nHello")),
      (S "b", Except.ok (S "---\nid: start\n---\nWorld"))]
     [[(S "id", PyVal.str (S "start")),
       (S "textBlocks", PyVal.list [PyVal.str (S "Hello")]), (S "choices", PyVal.list [])],
      [(S "id", PyVal.str (S "start")),
       (S "textBlocks", PyVal.list [PyVal.str (S "World")]), (S "choices", PyVal.list [])]]
     rfl rfl rfl (Or.inl (by decide)),
   c1_staged_writes.2.2.2.2.1 ⟨[], some [(S "a", Except.ok (S "---\nid: start\n---\nHello"))],
        some [(S "e1", Except.ok (S "---\nid: imp\n---\nGrr")),
          (S "e2", Except.ok (S "---\nid: imp\n---\nGrr"))]⟩
     [(S "a", Except.ok (S "---\nid: start\n---\nHello"))]
     [[(S "id", PyVal.str (S "start")),
       (S "textBlocks", PyVal.list [PyVal.str (S "Hello")]), (S "choices", PyVal.list [])]]
     [(S "e1", Except.ok (S "---\nid: imp\n---\nGrr")),
      (S "e2", Except.ok (S "---\nid: imp\n---\nGrr"))]
     rfl rfl (List.cons_ne_nil _ _) rfl rfl rfl rfl rfl (List.cons_ne_nil _ _)
     (Or.inr ⟨[[(S "id", PyVal.str (S "imp")), (S "description", PyVal.str (S "Grr"))],
        [(S "id", PyVal.str (S "imp")), (S "description", PyVal.str (S "Grr"))]], rfl, rfl⟩),
   c1_staged_writes.2.2.2.2.2.1 ⟨[], some [(S "a", Except.ok (S "---\nid: start\n---\nHello"))],
        some [(S "e", Except.ok (S "---\nid: imp\nhp: 3\n---\n"))]⟩ (by decide)⟩

/-- C1 counterexample: with a duplicate scene id the run exits non-zero but
the theme output has already been written, so the write set is not empty as
the claim requires. -/
theorem c1_counterexample :
    mainRun ⟨[], some [(S "a", .ok (S "---\nid: start\n---\nHello")),
                       (S "b", .ok (S "---\nid: start\n---\nWorld"))], none⟩ =
      (1, [OutFile.theme])
    ∧ ([OutFile.theme] : List OutFile) ≠ [] :=
  ⟨rfl, by decide⟩

end StoryBuild
